import Mathlib

/-!
Verification of MCP-Dock core components against their natural-language
specification.  The Python sources under `mcp_dock/core` are shallowly
embedded: JSON values become an inductive type, Python dicts become
insertion-ordered association lists, and functions that can raise become
`Except String` computations (the error string names the Python exception
class).  Logging calls, which never affect state or results, are not
modelled.
-/

namespace MCPDock

/-- JSON values as manipulated by the Python code.  Numbers are modelled as
integers: every numeric constant in the embedded code paths is integral. -/
inductive Json where
  | null
  | bool (b : Bool)
  | num (n : Int)
  | str (s : String)
  | arr (xs : List Json)
  | obj (kvs : List (String × Json))
deriving Repr, BEq

abbrev JObj := List (String × Json)

/-- First-match association-list lookup (Python `d[k]` / `d.get(k)`).
Keys are unique in every dict the embedded code builds, so first-match
agrees with Python dict semantics. -/
def dGet? (kvs : JObj) (k : String) : Option Json :=
  match kvs with
  | [] => none
  | (k', v) :: rest => if k' = k then some v else dGet? rest k

/-- Python `d.get(k, default)`. -/
def dGetD (kvs : JObj) (k : String) (d : Json) : Json :=
  (dGet? kvs k).getD d

/-- Python `k in d` for a dict. -/
def dMem (kvs : JObj) (k : String) : Bool :=
  (dGet? kvs k).isSome

/-- Python `d[k] = v`: replace in place if the key exists, else append,
preserving insertion order. -/
def dSet (kvs : JObj) (k : String) (v : Json) : JObj :=
  match kvs with
  | [] => [(k, v)]
  | (k', v') :: rest => if k' = k then (k, v) :: rest else (k', v') :: dSet rest k v

/-- Python `d.pop(k)` (the removal part). -/
def dRemove (kvs : JObj) (k : String) : JObj :=
  match kvs with
  | [] => []
  | (k', v') :: rest => if k' = k then rest else (k', v') :: dRemove rest k

/-- Generic first-match lookup for the manager maps (name → instance). -/
def lookupA {α : Type} (m : List (String × α)) (k : String) : Option α :=
  match m with
  | [] => none
  | (k', v) :: rest => if k' = k then some v else lookupA rest k

/-- Replace-or-append update for the manager maps. -/
def setA {α : Type} (m : List (String × α)) (k : String) (v : α) : List (String × α) :=
  match m with
  | [] => [(k, v)]
  | (k', v') :: rest => if k' = k then (k, v) :: rest else (k', v') :: setA rest k v

/-- Python truthiness of a JSON value. -/
def pyTruthy : Json → Bool
  | .null => false
  | .bool b => b
  | .num n => n != 0
  | .str s => s ≠ ""
  | .arr xs => !xs.isEmpty
  | .obj kvs => !kvs.isEmpty

/-- Characters stripped by Python `str.strip()`. -/
def isPyWs (c : Char) : Bool :=
  c = ' ' || c = '\t' || c = '\n' || c = '\x0d' || c = '\x0b' || c = '\x0c'

/-- Python `str.strip()` on character lists: drop leading and trailing
whitespace. -/
def stripChars (l : List Char) : List Char :=
  ((l.dropWhile isPyWs).reverse.dropWhile isPyWs).reverse

/-- Python `str.strip()`. -/
def pyStrip (s : String) : String :=
  String.mk (stripChars s.data)

/-- Python `str.lower()` (ASCII case folding suffices for the embedded keys). -/
def strLower (s : String) : String :=
  String.mk (s.data.map Char.toLower)

/-- `needle` occurs at the head of `hay`. -/
def subAt : List Char → List Char → Bool
  | _, [] => true
  | [], _ :: _ => false
  | c :: cs, d :: ds => c = d && subAt cs ds

/-- Substring test on character lists (Python `needle in hay` for strings). -/
def hasSub (hay needle : List Char) : Bool :=
  match hay with
  | [] => subAt [] needle
  | _ :: cs => subAt hay needle || hasSub cs needle

/-- Python `str(v)` for a JSON value.  Only its emptiness after stripping is
relied on by the theorems; container renderings follow `repr`. -/
def pyStr : Json → String
  | .null => "None"
  | .bool true => "True"
  | .bool false => "False"
  | .num n => toString n
  | .str s => s
  | .arr _ => "[...]"
  | .obj _ => "\x7b...\x7d"

/-- Python `isinstance(v, int)` (Python `bool` is a subclass of `int`). -/
def pyIsInt : Json → Bool
  | .num _ => true
  | .bool _ => true
  | _ => false

/-- Python `v == s` for a string literal `s`. -/
def jeqStr (v : Json) (s : String) : Bool :=
  match v with
  | .str s' => s' = s
  | _ => false

/-- Python `v in l` for a list `l` of strings. -/
def pyStrIn (v : Json) (l : List String) : Bool :=
  match v with
  | .str s => l.contains s
  | _ => false

/-! ## `protocol_converter.clean_tool_arguments`

Embeds `clean_tool_arguments` from `mcp_dock/core/protocol_converter.py`:
keys whose lowercased name contains `cursor` (or equals one of the explicit
cursor names) are dropped when their value is an empty or whitespace-only
string; nested dicts are cleaned recursively; other values pass through,
and a non-dict argument object is returned unchanged. -/

/-- The key test from `clean_tool_arguments`:
`"cursor" in key.lower() or key.lower() in ["start_cursor", "end_cursor", "next_cursor"]`. -/
def isCursorKey (k : String) : Bool :=
  hasSub (strLower k).data "cursor".data
    || (strLower k = "start_cursor" || strLower k = "end_cursor" || strLower k = "next_cursor")

/-- `isinstance(value, str) and value.strip() == ""`. -/
def isBlankStr : Json → Bool
  | .str s => pyStrip s = ""
  | _ => false

mutual

/-- `clean_tool_arguments(arguments)` from `protocol_converter.py`. -/
def clean_tool_arguments : Json → Json
  | .obj kvs => .obj (cleanPairs kvs)
  | v => v

/-- The `for key, value in arguments.items()` loop of `clean_tool_arguments`. -/
def cleanPairs : JObj → JObj
  | [] => []
  | (k, v) :: rest =>
    if isBlankStr v then
      if isCursorKey k then cleanPairs rest
      else (k, v) :: cleanPairs rest
    else
      match v with
      | .obj _ => (k, clean_tool_arguments v) :: cleanPairs rest
      | _ => (k, v) :: cleanPairs rest

end

/-! ## `mcp_compliance` module

Embeddings of `MCPComplianceValidator.validate_jsonrpc_response`,
`MCPComplianceEnforcer.ensure_jsonrpc_response`,
`MCPComplianceEnforcer.fix_tool_definition` and
`MCPComplianceEnforcer.fix_initialization_response` from
`mcp_dock/core/mcp_compliance.py`. -/

/-- Python `if k not in d: d[k] = v` — ensure a key with a default. -/
def ensureKey (l : JObj) (k : String) (v : Json) : JObj :=
  if dMem l k then l else dSet l k v

/-- `MCPComplianceValidator.validate_jsonrpc_response` (validity flag only;
the companion error message never influences control flow in the callers). -/
def validate_jsonrpc_response (r : JObj) : Bool :=
  if !dMem r "jsonrpc" then false
  else if !(match dGet? r "jsonrpc" with | some (.str "2.0") => true | _ => false) then false
  else if !dMem r "id" then false
  else
    let hasR := dMem r "result"
    let hasE := dMem r "error"
    if !hasR && !hasE then false
    else if hasR && hasE then false
    else if hasE then
      match dGet? r "error" with
      | some (.obj e) =>
        if !dMem e "code" then false
        else if !dMem e "message" then false
        else if !pyIsInt (dGetD e "code" .null) then false
        else (match dGet? e "message" with | some (.str _) => true | _ => false)
      | _ => false
    else true

/-- `isinstance(error, dict) and "code" in error and "message" in error`
from the error-fixing branch of `ensure_jsonrpc_response`. -/
def errWellFormed : Json → Bool
  | .obj ekvs => dMem ekvs "code" && dMem ekvs "message"
  | _ => false

/-- The rebuild path of `ensure_jsonrpc_response` (everything after the
early return of an already-valid response). -/
def ensureRebuild (kvs : JObj) (request_id : Json) : JObj :=
  let idv := dGetD kvs "id" request_id
  let base : JObj := [("jsonrpc", .str "2.0"), ("id", idv)]
  if dMem kvs "error" then
    let e := dGetD kvs "error" .null
    if errWellFormed e then base ++ [("error", e)]
    else base ++ [("error", .obj [("code", .num (-32603)),
      ("message", .str (if pyTruthy e then pyStr e else "Internal error"))])]
  else if dMem kvs "result" then
    base ++ [("result", dGetD kvs "result" .null)]
  else
    let rd := kvs.filter (fun kv => !(kv.1 == "jsonrpc") && !(kv.1 == "id"))
    base ++ [("result", if !rd.isEmpty then .obj rd else .obj kvs)]

/-- `MCPComplianceEnforcer.ensure_jsonrpc_response`.  A non-dict argument
raises `AttributeError` in the source: `response.get("id", request_id)` runs
before the `isinstance(response, dict)` distinction, so the intended
non-dict branch is unreachable. -/
def ensure_jsonrpc_response (response : Json) (request_id : Json) : Except String Json :=
  match response with
  | .obj kvs =>
    if dMem kvs "jsonrpc" && validate_jsonrpc_response kvs then .ok (.obj kvs)
    else .ok (.obj (ensureRebuild kvs request_id))
  | _ => .error "AttributeError"

/-- `MCPComplianceEnforcer.fix_tool_definition`.  `idAddr` stands for the
CPython object id used in the default name `f"Tool-{id(tool)}"`. -/
def fix_tool_definition (idAddr : Nat) (tool : Json) : Except String Json :=
  match tool with
  | .obj kvs =>
    let t3 := ensureKey (ensureKey (ensureKey kvs
        "name" (.str ("Tool-" ++ toString idAddr)))
        "description" (.str "No description provided"))
      "inputSchema" (.obj [("type", .str "object"), ("properties", .obj [])])
    .ok (.obj (match dGetD t3 "inputSchema" .null with
      | .obj iskvs =>
        if dMem iskvs "type" then t3
        else dSet t3 "inputSchema"
          (.obj (ensureKey (dSet iskvs "type" (.str "object")) "properties" (.obj [])))
      | _ => dSet t3 "inputSchema" (.obj [("type", .str "object"), ("properties", .obj [])])))
  | .arr _ => .error "TypeError"
  | _ => .error "AttributeError"

/-- Python `k in v` for an arbitrary value: key test for dicts, element test
for lists, substring test for strings, `TypeError` otherwise. -/
def pyContains (k : String) : Json → Except String Bool
  | .obj kvs => .ok (dMem kvs k)
  | .arr xs => .ok (xs.any (fun x => x == .str k))
  | .str s => .ok (hasSub s.data k.data)
  | _ => .error "TypeError"

/-- Python `v[k] = x`: item assignment, `TypeError` for non-dicts. -/
def pySetItem (v : Json) (k : String) (x : Json) : Except String Json :=
  match v with
  | .obj kvs => .ok (.obj (dSet kvs k x))
  | _ => .error "TypeError"

/-- Python `v.pop(k)`: returns the removed value and the remainder.  Every
call site is guarded by `k in v`, so the dict case never raises `KeyError`;
lists raise `TypeError` (string index), other values `AttributeError`. -/
def pyPop (v : Json) (k : String) : Except String (Json × Json) :=
  match v with
  | .obj kvs => .ok (dGetD kvs k .null, .obj (dRemove kvs k))
  | .arr _ => .error "TypeError"
  | _ => .error "AttributeError"

/-- The capabilities block of `fix_initialization_response` (logging, tools
and resources repairs), acting on a capabilities dict. -/
def fixCapabilities (cap : JObj) : JObj :=
  let c1 := match dGet? cap "logging" with
    | none => dSet cap "logging" (.obj [])
    | some .null => dSet cap "logging" (.obj [])
    | some _ => cap
  let c2 := match dGet? c1 "tools" with
    | none => c1
    | some .null => c1
    | some t =>
      let tk := match t with | .obj tk => tk | _ => ([] : JObj)
      let tk' := match dGet? tk "listChanged" with
        | none => dSet tk "listChanged" (.bool true)
        | some .null => dSet tk "listChanged" (.bool true)
        | some _ => tk
      dSet c1 "tools" (.obj tk')
  match dGet? c2 "resources" with
  | none => c2
  | some .null => c2
  | some (.obj rk) =>
    let rk1 := if dMem rk "subscribe" then rk else dSet rk "subscribe" (.bool false)
    let rk2 := if dMem rk1 "listChanged" then rk1 else dSet rk1 "listChanged" (.bool false)
    dSet c2 "resources" (.obj rk2)
  | some _ => dSet c2 "resources" (.obj [("subscribe", .bool false), ("listChanged", .bool false)])

/-- `if "name" not in server_info: server_info["name"] = "Unknown"`. -/
def siEnsureName (si : Json) : Except String Json := do
  let c ← pyContains "name" si
  if c then pure si else pySetItem si "name" (.str "Unknown")

/-- `if "version" not in server_info: server_info["version"] = "1.0.0"`. -/
def siEnsureVersion (si : Json) : Except String Json := do
  let c ← pyContains "version" si
  if c then pure si else pySetItem si "version" (.str "1.0.0")

/-- The `instructions` move of `fix_initialization_response`: pop
`instructions` out of serverInfo and place its stripped stringification at
the top level when it is truthy and non-blank. -/
def siPopInstructions (si : Json) (top : JObj) : Except String (Json × JObj) := do
  let c ← pyContains "instructions" si
  if c then do
    let pv ← pyPop si "instructions"
    let top' := if pyTruthy pv.1 && !(pyStrip (pyStr pv.1) == "") then
        dSet top "instructions" (.str (pyStrip (pyStr pv.1)))
      else top
    pure (pv.2, top')
  else pure (si, top)

/-- `if "description" in server_info: server_info.pop("description")`. -/
def siPopDescription (si : Json) : Except String Json := do
  let c ← pyContains "description" si
  if c then do
    let pv ← pyPop si "description"
    pure pv.2
  else pure si

/-- The serverInfo block of `fix_initialization_response`: default name and
version, move `instructions` to the top level, drop `description`.  Returns
the updated serverInfo value and the updated top-level dict. -/
def fixServerInfo (si0 : Json) (top0 : JObj) : Except String (Json × JObj) := do
  let si1 ← siEnsureName si0
  let si2 ← siEnsureVersion si1
  let st ← siPopInstructions si2 top0
  let si4 ← siPopDescription st.1
  pure (si4, st.2)

/-- The trailing instructions filter of `fix_initialization_response`:
`if "instructions" in fixed_response: pop it unless truthy and non-blank`. -/
def finalInstructionsFilter (f6 : JObj) : JObj :=
  match dGet? f6 "instructions" with
  | none => f6
  | some v => if pyTruthy v && !(pyStrip (pyStr v) == "") then f6
      else dRemove f6 "instructions"

/-- `MCPComplianceEnforcer.fix_initialization_response`.  Non-dict inputs
raise (`.copy` / item access fail); a non-dict capabilities value raises at
`capabilities.get("logging")`. -/
def fix_initialization_response (response : Json) : Except String Json := do
  match response with
  | .obj kvs0 =>
    let f1 := ensureKey kvs0 "protocolVersion" (.str "2025-03-26")
    let f2 := ensureKey f1 "capabilities" (.obj [])
    let f3 ← match dGetD f2 "capabilities" .null with
      | .obj cap => pure (dSet f2 "capabilities" (.obj (fixCapabilities cap)))
      | _ => Except.error "AttributeError"
    let f4 := ensureKey f3 "serverInfo" (.obj [("name", .str "Unknown"), ("version", .str "1.0.0")])
    let state ← fixServerInfo (dGetD f4 "serverInfo" .null) f4
    let f6 := dSet state.2 "serverInfo" state.1
    pure (.obj (finalInstructionsFilter f6))
  | .arr _ => .error "TypeError"
  | _ => .error "AttributeError"

/-! ## `mcp_proxy` module

Embeddings from `mcp_dock/core/mcp_proxy.py`.  Only the fields read by the
embedded operations are retained on the server side; upstream I/O
(`session.send_request`, `McpServiceManager.call_server_method`) is
abstracted as an oracle function, `Except.error` standing for a raised
exception. -/

/-- `McpProxyConfig` (dataclass). -/
structure McpProxyConfig where
  name : String
  server_name : String
  endpoint : String := "/mcp"
  transport_type : String := "streamableHTTP"
  exposed_tools : List String := []
  auto_start : Bool := false
  description : String := ""

/-- `McpProxyInstance` (dataclass). -/
structure McpProxyInstance where
  config : McpProxyConfig
  status : String := "stopped"
  error_message : Option String := none
  tools : List Json := []

/-- The claim-relevant part of `mcp_service.McpServerConfig`. -/
structure McpServerConfig where
  name : String
  transport_type : String := "stdio"

/-- The claim-relevant part of `mcp_service.McpServerInstance`. -/
structure McpServerInstance where
  config : McpServerConfig
  status : String := "stopped"
  tools : List Json := []

/-- The per-transport `valid_statuses` lists computed in
`_auto_start_proxies` and `update_proxy_tools`. -/
def validStatuses (transport_type : String) : List String :=
  if transport_type = "stdio" then ["running", "verified"]
  else ["connected", "running", "verified"]

/-- The loop body of `McpProxyManager._auto_start_proxies` for one proxy
with `auto_start` handling.  The delayed tool-update task that the empty
branch schedules is modelled separately by `delayedProxyToolUpdate`. -/
def autoStartProxy (servers : List (String × McpServerInstance)) (p : McpProxyInstance) :
    McpProxyInstance :=
  if !p.config.auto_start then p
  else
    match lookupA servers p.config.server_name with
    | none =>
      { p with
        status := "error",
        error_message := some ("Target service " ++ p.config.server_name ++ " not found") }
    | some target =>
      if (validStatuses target.config.transport_type).contains target.status then
        if !target.tools.isEmpty then
          { p with status := "running", error_message := none, tools := target.tools }
        else
          { p with status := "running", error_message := none }
      else
        { p with
          status := "error",
          error_message := some ("Target service " ++ p.config.server_name ++
            " is not available (status: " ++ target.status ++ ")") }

/-- `McpProxyManager._auto_start_proxies` over the whole proxy map. -/
def auto_start_proxies (servers : List (String × McpServerInstance))
    (proxies : List (String × McpProxyInstance)) : List (String × McpProxyInstance) :=
  proxies.map (fun np => (np.1, autoStartProxy servers np.2))

/-- One successful attempt of `McpProxyManager._delayed_proxy_tool_update`:
when the target service has tools they are copied verbatim; otherwise the
attempt leaves the proxy unchanged (the loop retries or gives up). -/
def delayedProxyToolUpdate (servers : List (String × McpServerInstance))
    (p : McpProxyInstance) : McpProxyInstance :=
  match lookupA servers p.config.server_name with
  | none => p
  | some target =>
    if !target.tools.isEmpty then { p with tools := target.tools } else p

/-- `t.get("name", "")` on a tool entry; non-dict entries raise. -/
def toolGetName : Json → Except String Json
  | .obj kvs => .ok (dGetD kvs "name" (.str ""))
  | _ => .error "AttributeError"

/-- The filtering comprehension of `update_proxy_tools`:
`[t for t in tools if t.get("name", "") in proxy.config.exposed_tools]`. -/
def filterExposed (exposed : List String) : List Json → Except String (List Json)
  | [] => .ok []
  | t :: ts => do
    let n ← toolGetName t
    let keep := pyStrIn n exposed
    let rest ← filterExposed exposed ts
    if keep then .ok (t :: rest) else .ok rest

/-- Result triple of `update_proxy_tools` (updated instance plus the
`(success, tools)` return value). -/
structure UpdateResult where
  proxy : McpProxyInstance
  ok : Bool
  tools : List Json

/-- `McpProxyManager.update_proxy_tools`.  After the status and empty-tools
guards, the cached-tools branch is always taken (its condition repeats the
guards), so the protocol-adapter fallback is unreachable and not modelled;
an exception while filtering lands in the outer `except` (error status). -/
def update_proxy_tools (servers : List (String × McpServerInstance))
    (p : McpProxyInstance) : UpdateResult :=
  match lookupA servers p.config.server_name with
  | none =>
    ⟨{ p with
       status := "error",
       error_message := some ("Target service " ++ p.config.server_name ++ " does not exist") },
      false, []⟩
  | some server =>
    if !(validStatuses server.config.transport_type).contains server.status then
      ⟨{ p with
         status := "error",
         error_message := some ("Target service " ++ p.config.server_name ++
           " is not available (status: " ++ server.status ++ ")") }, false, []⟩
    else if server.tools.isEmpty then
      ⟨{ p with
         status := "error",
         error_message := some ("Target service " ++ p.config.server_name ++ " has no tool list") },
        false, []⟩
    else
      match (if !p.config.exposed_tools.isEmpty then filterExposed p.config.exposed_tools server.tools
             else .ok server.tools) with
      | .ok ptools => ⟨{ p with tools := ptools, status := "running", error_message := none },
          true, ptools⟩
      | .error e => ⟨{ p with status := "error", error_message := some e }, false, []⟩

/-- `McpProxyManager.proxy_request`.  `call_server` abstracts
`McpServiceManager.call_server_method(server_name, method, params)`. -/
def proxy_request (call_server : String → Json → Json → Except String Json)
    (proxies : List (String × McpProxyInstance)) (servers : List (String × McpServerInstance))
    (name : String) (request : JObj) : Except String Json :=
  match lookupA proxies name with
  | none => .error "ValueError"
  | some proxy =>
    match lookupA servers proxy.config.server_name with
    | none => .error "ValueError"
    | some _ =>
      let method := dGetD request "method" .null
      let params := dGetD request "params" (.obj [])
      let request_id := dGetD request "id" .null
      if jeqStr method "list_tools" || jeqStr method "tools/list" then
        .ok (.obj [("jsonrpc", .str "2.0"), ("id", request_id),
          ("result", .obj [("tools", .arr proxy.tools)])])
      else
        match call_server proxy.config.server_name method params with
        | .ok result => .ok (.obj [("jsonrpc", .str "2.0"), ("id", request_id),
            ("result", result)])
        | .error e =>
          if dMem request "id" then
            .ok (.obj [("jsonrpc", .str "2.0"), ("id", dGetD request "id" .null),
              ("error", .obj [("code", .num (-32603)),
                ("message", .str ("Proxy request processing error: " ++ e))])])
          else .error e

/-- Success response `{"jsonrpc": "2.0", "id": i, "result": r}`. -/
def jsonrpcResult (i r : Json) : Json :=
  .obj [("jsonrpc", .str "2.0"), ("id", i), ("result", r)]

/-- Error response `{"jsonrpc": "2.0", "id": i, "error": {"code": c, "message": m}}`. -/
def jsonrpcError (i : Json) (c : Int) (m : String) : Json :=
  .obj [("jsonrpc", .str "2.0"), ("id", i),
    ("error", .obj [("code", .num c), ("message", .str m)])]

mutual

/-- `McpProxyManager._process_jsonrpc_request`.  `send_request` abstracts
`session.send_request(method, params)`.  The inner resource branches of the
exposed-tools check are kept even though the earlier unconditional resource
handling makes them unreachable. -/
def process_jsonrpc_request (send_request : Json → Json → Except String Json)
    (proxy : McpProxyInstance) : Json → Except String Json
  | .obj kvs =>
    let idv := dGetD kvs "id" .null
    if dMem kvs "method" && jeqStr (dGetD kvs "method" .null) "resources/list" then
      .ok (jsonrpcResult idv (.obj [("resources", .arr [])]))
    else if dMem kvs "method" && jeqStr (dGetD kvs "method" .null) "resources/templates/list" then
      .ok (jsonrpcResult idv (.obj [("resourceTemplates", .arr [])]))
    else if !proxy.config.exposed_tools.isEmpty && dMem kvs "method"
        && !pyStrIn (dGetD kvs "method" .null) proxy.config.exposed_tools then
      if jeqStr (dGetD kvs "method" .null) "resources/list" then
        .ok (jsonrpcResult idv (.obj [("resources", .arr [])]))
      else if jeqStr (dGetD kvs "method" .null) "resources/templates/list" then
        .ok (jsonrpcResult idv (.obj [("resourceTemplates", .arr [])]))
      else .ok (jsonrpcError idv (-32601)
          ("Method " ++ pyStr (dGetD kvs "method" .null) ++ " is not exposed in this proxy"))
    else
      let method := dGetD kvs "method" .null
      let params := dGetD kvs "params" (.obj [])
      if jeqStr method "list_tools" || jeqStr method "tools/list" then
        .ok (jsonrpcResult idv (.obj [("tools", .arr proxy.tools)]))
      else
        match send_request method (if pyTruthy params then params else .obj []) with
        | .ok resp => .ok (jsonrpcResult idv resp)
        | .error e =>
          if dMem kvs "id" then
            .ok (jsonrpcError idv (-32603) ("JSON-RPC request processing error: " ++ e))
          else .error e
  | .arr reqs => (processBatch send_request proxy reqs).map Json.arr
  | _ => .error "ValueError"

/-- Batch-request loop of `_process_jsonrpc_request`; an exception re-raised
by a sub-request propagates (the parent request is a list, so its handler
re-raises). -/
def processBatch (send_request : Json → Json → Except String Json)
    (proxy : McpProxyInstance) : List Json → Except String (List Json)
  | [] => .ok []
  | r :: rs => do
    let x ← process_jsonrpc_request send_request proxy r
    let xs ← processBatch send_request proxy rs
    pure (x :: xs)

end

/-! ## `sse_session_manager` module

Embeddings from `mcp_dock/core/sse_session_manager.py`.  Timestamps are
integers (the code only compares differences against integral thresholds);
the float thresholds `1.5` and `1.2` in the severity computation are
expressed by exact cross-multiplication. -/

/-- `RateLimitConfig` (dataclass); `warning_threshold` only drives log
warnings and is omitted. -/
structure RateLimitConfig where
  max_sessions_per_client : Int := 10
  max_sessions_per_proxy : Int := 50
  session_creation_window : Int := 60
  burst_allowance : Int := 3
  adaptive_scaling : Bool := true

/-- `PendingMessage` (dataclass). -/
structure PendingMessage where
  message : Json
  timestamp : Int
  retry_count : Int := 0
  max_retries : Int := 3
  timeout : Int := 30

/-- `SSESession` (dataclass). -/
structure SSESession where
  session_id : String
  proxy_name : String
  client_host : String
  created_at : Int
  pending_messages : List PendingMessage := []
  is_initialized : Bool := false
  last_activity : Int
  message_timeout : Int := 30

/-- A rate-limit violation record (the dict built in
`_record_rate_limit_violation`; the constant `None` diagnostic fields are
omitted). -/
structure Violation where
  timestamp : Int
  client_host : String
  proxy_name : String
  violation_type : String
  reason : String
  details : JObj
  severity : String

/-- The mutable state of `SSESessionManager` touched by registration. -/
structure SessionState where
  sessions : List (String × SSESession) := []
  client_session_history : List (String × List Int) := []
  rate_limit_cache : List (String × (Int × Bool × String)) := []
  rate_limit_violations : List (String × List Violation) := []

/-- `details.get(k, 0)` for the integer fields read by the severity
computation. -/
def pyGetInt (d : JObj) (k : String) : Int :=
  match dGet? d k with | some (.num n) => n | _ => 0

/-- `SSESessionManager._calculate_violation_severity`.  `s > l * 1.5` and
`s > l * 1.2` on integers are rendered as `2*s > 3*l` and `5*s > 6*l`. -/
def calculate_violation_severity (violation_type : String) (details : JObj) : String :=
  if violation_type = "client_limit" then
    let s := pyGetInt details "client_sessions"
    let l := pyGetInt details "effective_limit"
    if s > l * 2 then "critical"
    else if 2 * s > 3 * l then "high"
    else if 5 * s > 6 * l then "medium"
    else "low"
  else if violation_type = "proxy_limit" then
    let s := pyGetInt details "proxy_sessions"
    let l := pyGetInt details "proxy_limit"
    if 2 * s > 3 * l then "critical"
    else if 5 * s > 6 * l then "high"
    else "medium"
  else "medium"

/-- `SSESessionManager._record_rate_limit_violation` (window 3600 s,
history cap 100, per the instance constants). -/
def record_rate_limit_violation (st : SessionState) (now : Int)
    (client_host proxy_name violation_type reason : String) (details : JObj) : SessionState :=
  let record : Violation :=
    { timestamp := now, client_host := client_host, proxy_name := proxy_name,
      violation_type := violation_type, reason := reason, details := details,
      severity := calculate_violation_severity violation_type details }
  let appended := ((lookupA st.rate_limit_violations client_host).getD []) ++ [record]
  let recent := appended.filter (fun v => v.timestamp > now - 3600)
  let limited := if recent.length > 100 then recent.drop (recent.length - 100) else recent
  { st with rate_limit_violations := setA st.rate_limit_violations client_host limited }

/-- `max(client_sessions) if client_sessions else 0`. -/
def maxTs : List Int → Int
  | [] => 0
  | x :: xs => xs.foldl max x

/-- Result of `_check_rate_limits`: the returned `(is_allowed, reason)`
pair plus the updated manager state. -/
structure CheckResult where
  allowed : Bool
  reason : String
  state : SessionState

/-- The history cleanup step of `_check_rate_limits`: per client, keep the
timestamps inside the creation window, dropping clients left empty. -/
def cleanedHistory (cfg : RateLimitConfig) (st : SessionState) (now : Int) :
    List (String × List Int) :=
  (st.client_session_history.map
      (fun cts => (cts.1, cts.2.filter (fun t => t > now - cfg.session_creation_window)))).filter
    (fun cts => !cts.2.isEmpty)

/-- `client_sessions` in `_check_rate_limits`: the cleaned creation
timestamps of one client. -/
def clientSessions (cfg : RateLimitConfig) (st : SessionState) (now : Int)
    (client_host : String) : List Int :=
  (lookupA (cleanedHistory cfg st now) client_host).getD []

/-- `effective_client_limit` in `_check_rate_limits`: the client cap plus
the burst allowance when adaptive scaling applies and the client has been
inactive for more than 30 s. -/
def effectiveClientLimit (cfg : RateLimitConfig) (sessions : List Int) (now : Int) : Int :=
  cfg.max_sessions_per_client +
    (if cfg.adaptive_scaling && !sessions.isEmpty && now - maxTs sessions > 30 then
      cfg.burst_allowance else 0)

/-- `proxy_session_count` in `_check_rate_limits` (the history cleanup that
precedes it never touches `sessions`, so it reads the original state). -/
def proxySessionCount (st : SessionState) (proxy_name : String) : Nat :=
  (st.sessions.filter (fun p => p.2.proxy_name == proxy_name)).length

/-- No cache entry for this key is fresher than the 5 s TTL. -/
def cacheStale (st : SessionState) (key : String) (now : Int) : Prop :=
  ∀ t a r, lookupA st.rate_limit_cache key = some (t, a, r) → 5 ≤ now - t

/-- The most recently recorded violation of a client. -/
def lastViolation (st : SessionState) (ch : String) : Option Violation :=
  ((lookupA st.rate_limit_violations ch).getD []).getLast?

/-- The body of `_check_rate_limits` after a cache miss: history cleanup,
client cap with burst allowance, proxy cap, violation recording, caching. -/
def checkRateLimitsMain (cfg : RateLimitConfig) (st : SessionState) (now : Int)
    (proxy_name client_host : String) : CheckResult :=
  let cache_key := client_host ++ ":" ++ proxy_name
  let st0 := { st with client_session_history := cleanedHistory cfg st now }
  let client_sessions := clientSessions cfg st now client_host
  let effective := effectiveClientLimit cfg client_sessions now
  if (client_sessions.length : Int) ≥ effective then
    let reason := "Client " ++ client_host ++ " exceeded rate limit (" ++
      toString client_sessions.length ++ "/" ++ toString effective ++ " sessions in " ++
      toString cfg.session_creation_window ++ "s)"
    let details : JObj := [("client_sessions", .num client_sessions.length),
      ("effective_limit", .num effective),
      ("window_seconds", .num cfg.session_creation_window),
      ("adaptive_scaling_applied",
        .bool (cfg.adaptive_scaling && effective > cfg.max_sessions_per_client))]
    let st1 := record_rate_limit_violation st0 now client_host proxy_name "client_limit" reason details
    let st2 := { st1 with rate_limit_cache := setA st1.rate_limit_cache cache_key (now, false, reason) }
    ⟨false, reason, st2⟩
  else
    let proxy_count := proxySessionCount st proxy_name
    if (proxy_count : Int) ≥ cfg.max_sessions_per_proxy then
      let reason := "Proxy " ++ proxy_name ++ " exceeded session limit (" ++
        toString proxy_count ++ "/" ++ toString cfg.max_sessions_per_proxy ++ " active sessions)"
      let details : JObj := [("proxy_sessions", .num proxy_count),
        ("proxy_limit", .num cfg.max_sessions_per_proxy)]
      let st1 := record_rate_limit_violation st0 now client_host proxy_name "proxy_limit" reason details
      let st2 := { st1 with rate_limit_cache := setA st1.rate_limit_cache cache_key (now, false, reason) }
      ⟨false, reason, st2⟩
    else
      ⟨true, "", { st0 with rate_limit_cache := setA st0.rate_limit_cache cache_key (now, true, "") }⟩

/-- `SSESessionManager._check_rate_limits` (cache TTL 5 s). -/
def check_rate_limits (cfg : RateLimitConfig) (st : SessionState) (now : Int)
    (proxy_name client_host : String) : CheckResult :=
  let cache_key := client_host ++ ":" ++ proxy_name
  match lookupA st.rate_limit_cache cache_key with
  | some (t, a, r) =>
    if now - t < 5 then ⟨a, r, st⟩
    else checkRateLimitsMain cfg st now proxy_name client_host
  | none => checkRateLimitsMain cfg st now proxy_name client_host

/-- `SSESessionManager.register_session`: rate-limit check, duplicate
replacement, history append, session creation. -/
def register_session (cfg : RateLimitConfig) (st : SessionState) (now : Int)
    (session_id proxy_name client_host : String) : Bool × SessionState :=
  let c := check_rate_limits cfg st now proxy_name client_host
  if !c.allowed then (false, c.state)
  else
    let st1 := c.state
    let hist0 := (lookupA st1.client_session_history client_host).getD []
    let st2 := { st1 with
      client_session_history := setA st1.client_session_history client_host (hist0 ++ [now]) }
    let session : SSESession :=
      { session_id := session_id, proxy_name := proxy_name, client_host := client_host,
        created_at := now, last_activity := now }
    (true, { st2 with sessions := setA st2.sessions session_id session })

/-- The `valid_types` list of `MCPComplianceValidator.validate_input_schema`. -/
def validSchemaTypes : List String :=
  ["object", "array", "string", "number", "integer", "boolean", "null"]

/-- The `type` field of a tool object's `inputSchema`, when that schema is
an object. -/
def schemaTypeOf (out : JObj) : Option Json :=
  match dGet? out "inputSchema" with
  | some (.obj sk) => dGet? sk "type"
  | _ => none

/-- The value `fix_tool_definition` leaves in `inputSchema.type`: the
input's own `type` whenever its `inputSchema` is an object that carries
one, and `"object"` otherwise. -/
def expectedSchemaType (kvs : JObj) : Json :=
  match dGet? kvs "inputSchema" with
  | some (.obj sk0) => dGetD sk0 "type" (.str "object")
  | some _ => .str "object"
  | none => .str "object"

/-! ## Concrete fixtures

Closed instances used by the counterexample and witness theorems: a
stdio upstream `S` exposing `get-user` and `delete-user`, and a proxy `P`
restricted to `get-user`. -/

def toolGetUser : Json := .obj [("name", .str "get-user")]

def toolDeleteUser : Json := .obj [("name", .str "delete-user")]

def serverS : McpServerInstance :=
  { config := { name := "S", transport_type := "stdio" }, status := "running",
    tools := [toolGetUser, toolDeleteUser] }

def proxyP : McpProxyInstance :=
  { config :=
      { name := "P"
        server_name := "S"
        exposed_tools := ["get-user"]
        auto_start := true } }

/-- A client that has just created ten sessions (the default per-client
cap) within one second, with a fresh positive rate-limit cache entry from
the tenth registration. -/
def stC3 : SessionState :=
  { sessions := [],
    client_session_history :=
      [("1.2.3.4", [991, 992, 993, 994, 995, 996, 997, 998, 999, 1000])],
    rate_limit_cache := [("1.2.3.4:P", (996, true, ""))],
    rate_limit_violations := [] }

/-- The default rate-limit configuration. -/
def cfgDef : RateLimitConfig := {}

/-- `stC3` with the rate-limit cache emptied (no fresh cache entry). -/
def stC3b : SessionState :=
  { sessions := [],
    client_session_history :=
      [("1.2.3.4", [991, 992, 993, 994, 995, 996, 997, 998, 999, 1000])],
    rate_limit_cache := [],
    rate_limit_violations := [] }

/-- A configuration with a per-proxy cap of one session. -/
def cfgC9 : RateLimitConfig := { max_sessions_per_proxy := 1 }

def sessC9 : SSESession :=
  { session_id := "s1", proxy_name := "P", client_host := "9.9.9.9",
    created_at := 0, last_activity := 0 }

/-- A state whose proxy `P` already holds one session. -/
def stC9 : SessionState := { sessions := [("s1", sessC9)] }

def sessC10 : SSESession :=
  { session_id := "sid", proxy_name := "P", client_host := "1.2.3.4",
    created_at := 500, last_activity := 500,
    pending_messages := [{ message := .str "old", timestamp := 500 }],
    is_initialized := true }

/-- A state with one registered (initialized) session `sid` that has a
pending message. -/
def stC10 : SessionState := { sessions := [("sid", sessC10)] }

/-! ## Association-list lemmas -/

/-- A dict-shaped list with no duplicate keys: the invariant of every
object a Python dict can denote. -/
def NodupKeys (l : JObj) : Prop := (l.map Prod.fst).Nodup

theorem dGet?_dSet_self (l : JObj) (k : String) (v : Json) : dGet? (dSet l k v) k = some v := by
  induction l with
  | nil => simp [dSet, dGet?]
  | cons p rest ih =>
    obtain ⟨k', v'⟩ := p
    by_cases h : k' = k
    · simp [dSet, dGet?, h]
    · simp [dSet, dGet?, h, ih]

theorem dGet?_dSet_ne (l : JObj) {k' k : String} (v : Json) (h : k' ≠ k) :
    dGet? (dSet l k' v) k = dGet? l k := by
  induction l with
  | nil => simp [dSet, dGet?, h]
  | cons p rest ih =>
    obtain ⟨k'', v''⟩ := p
    by_cases h2 : k'' = k'
    · simp [dSet, dGet?, h2, h]
    · by_cases h3 : k'' = k <;> simp [dSet, dGet?, h2, h3, Ne.symm h, ih]

theorem dGet?_dRemove_ne (l : JObj) {k' k : String} (h : k' ≠ k) :
    dGet? (dRemove l k') k = dGet? l k := by
  induction l with
  | nil => simp [dRemove]
  | cons p rest ih =>
    obtain ⟨k'', v''⟩ := p
    by_cases h2 : k'' = k'
    · subst h2
      simp [dRemove, dGet?, h]
    · by_cases h3 : k'' = k <;> simp [dRemove, dGet?, h2, h3, Ne.symm h, ih]

theorem dGet?_eq_none_of_not_mem {l : JObj} {k : String} (h : k ∉ l.map Prod.fst) :
    dGet? l k = none := by
  induction l with
  | nil => rfl
  | cons p rest ih =>
    obtain ⟨k', v'⟩ := p
    simp only [List.map_cons, List.mem_cons, not_or] at h
    rw [dGet?, if_neg (fun he => h.1 he.symm), ih h.2]

theorem dRemove_sublist (l : JObj) (k : String) : List.Sublist (dRemove l k) l := by
  induction l with
  | nil => simp [dRemove]
  | cons p rest ih =>
    obtain ⟨k', v'⟩ := p
    by_cases h : k' = k
    · simp [dRemove, h, List.sublist_cons_self]
    · simp only [dRemove, if_neg h]
      exact List.Sublist.cons₂ _ ih

theorem dGet?_dRemove_self {l : JObj} (k : String) (h : NodupKeys l) :
    dGet? (dRemove l k) k = none := by
  induction l with
  | nil => rfl
  | cons p rest ih =>
    obtain ⟨k', v'⟩ := p
    obtain ⟨h1, h2⟩ := List.nodup_cons.mp h
    by_cases he : k' = k
    · subst he
      simp only [dRemove, if_pos rfl]
      exact dGet?_eq_none_of_not_mem h1
    · simp [dRemove, dGet?, he, ih h2]

theorem mem_keys_dSet {l : JObj} {k a : String} (v : Json) :
    a ∈ (dSet l k v).map Prod.fst ↔ a ∈ l.map Prod.fst ∨ a = k := by
  induction l with
  | nil => simp [dSet]
  | cons p rest ih =>
    obtain ⟨k', v'⟩ := p
    by_cases h : k' = k
    · subst h
      simp [dSet]
      tauto
    · simp [dSet, h, ih]
      tauto

theorem NodupKeys_dSet {l : JObj} (k : String) (v : Json) (h : NodupKeys l) :
    NodupKeys (dSet l k v) := by
  induction l with
  | nil => simp [NodupKeys, dSet]
  | cons p rest ih =>
    obtain ⟨k', v'⟩ := p
    simp only [NodupKeys, List.map_cons, List.nodup_cons] at h
    obtain ⟨h1, h2⟩ := h
    by_cases he : k' = k
    · rw [show dSet ((k', v') :: rest) k v = (k, v) :: rest from by simp [dSet, he]]
      simp only [NodupKeys, List.map_cons, List.nodup_cons]
      exact ⟨he ▸ h1, h2⟩
    · rw [show dSet ((k', v') :: rest) k v = (k', v') :: dSet rest k v from by simp [dSet, he]]
      simp only [NodupKeys, List.map_cons, List.nodup_cons]
      refine ⟨?_, ih h2⟩
      intro hmem
      rcases (mem_keys_dSet v).mp hmem with h' | h'
      · exact h1 h'
      · exact he h'

theorem NodupKeys_dRemove {l : JObj} (k : String) (h : NodupKeys l) :
    NodupKeys (dRemove l k) :=
  ((dRemove_sublist l k).map Prod.fst).nodup h

theorem lookupA_setA_self {α : Type} (m : List (String × α)) (k : String) (v : α) :
    lookupA (setA m k v) k = some v := by
  induction m with
  | nil => simp [setA, lookupA]
  | cons p rest ih =>
    obtain ⟨k', v'⟩ := p
    by_cases h : k' = k
    · simp [setA, lookupA, h]
    · simp [setA, lookupA, h, ih]

theorem lookupA_setA_ne {α : Type} (m : List (String × α)) {k' k : String} (v : α) (h : k' ≠ k) :
    lookupA (setA m k' v) k = lookupA m k := by
  induction m with
  | nil => simp [setA, lookupA, h]
  | cons p rest ih =>
    obtain ⟨k'', v''⟩ := p
    by_cases h2 : k'' = k'
    · simp [setA, lookupA, h2, h]
    · by_cases h3 : k'' = k <;> simp [setA, lookupA, h2, h3, Ne.symm h, ih]

theorem setA_length_of_mem {α : Type} (m : List (String × α)) (k : String) (v : α)
    (h : (lookupA m k).isSome) : (setA m k v).length = m.length := by
  induction m with
  | nil => simp [lookupA] at h
  | cons p rest ih =>
    obtain ⟨k', v'⟩ := p
    by_cases he : k' = k
    · simp [setA, he]
    · simp only [lookupA, if_neg he] at h
      simp [setA, he, ih h]

/-! ## C8: argument cleaning -/

theorem isCursorKey_eq (k : String) :
    isCursorKey k = hasSub (strLower k).data "cursor".data := by
  unfold isCursorKey
  by_cases h1 : strLower k = "start_cursor"
  · rw [h1]; decide
  by_cases h2 : strLower k = "end_cursor"
  · rw [h2]; decide
  by_cases h3 : strLower k = "next_cursor"
  · rw [h3]; decide
  simp [h1, h2, h3]

theorem dGet?_cleanPairs (kvs : JObj) (k : String) (h : NodupKeys kvs) :
    dGet? (cleanPairs kvs) k = (dGet? kvs k).bind (fun v =>
      if isCursorKey k && isBlankStr v then none
      else some (clean_tool_arguments v)) := by
  induction kvs with
  | nil => rfl
  | cons p rest ih =>
    obtain ⟨k', v⟩ := p
    simp only [NodupKeys, List.map_cons, List.nodup_cons] at h
    obtain ⟨h1, h2⟩ := h
    have ih' := ih h2
    cases v with
    | str s =>
      by_cases hb : pyStrip s = ""
      · by_cases hc : isCursorKey k'
        · by_cases hk : k' = k
          · subst hk
            have hnone : dGet? rest k' = none := dGet?_eq_none_of_not_mem h1
            simp [cleanPairs, isBlankStr, hb, hc, dGet?, ih', hnone]
          · simp [cleanPairs, isBlankStr, hb, hc, dGet?, hk, ih']
        · by_cases hk : k' = k
          · subst hk
            simp [cleanPairs, isBlankStr, hb, hc, dGet?, clean_tool_arguments]
          · simp [cleanPairs, isBlankStr, hb, hc, dGet?, hk, ih']
      · by_cases hk : k' = k
        · subst hk
          simp [cleanPairs, isBlankStr, hb, dGet?, clean_tool_arguments]
        · simp [cleanPairs, isBlankStr, hb, dGet?, hk, ih']
    | obj kvs' =>
      by_cases hk : k' = k
      · subst hk
        simp [cleanPairs, isBlankStr, dGet?]
      · simp [cleanPairs, isBlankStr, dGet?, hk, ih']
    | null =>
      by_cases hk : k' = k
      · subst hk
        simp [cleanPairs, isBlankStr, dGet?, clean_tool_arguments]
      · simp [cleanPairs, isBlankStr, dGet?, hk, ih']
    | bool b =>
      by_cases hk : k' = k
      · subst hk
        simp [cleanPairs, isBlankStr, dGet?, clean_tool_arguments]
      · simp [cleanPairs, isBlankStr, dGet?, hk, ih']
    | num n =>
      by_cases hk : k' = k
      · subst hk
        simp [cleanPairs, isBlankStr, dGet?, clean_tool_arguments]
      · simp [cleanPairs, isBlankStr, dGet?, hk, ih']
    | arr xs =>
      by_cases hk : k' = k
      · subst hk
        simp [cleanPairs, isBlankStr, dGet?, clean_tool_arguments]
      · simp [cleanPairs, isBlankStr, dGet?, hk, ih']

/-- C8: `clean_tool_arguments(x)` contains exactly the pairs of `x` except
those whose key contains `cursor` case-insensitively and whose value is an
empty or whitespace-only string, which are removed; object values are
cleaned recursively and all other values are unchanged; a non-object input
is returned unchanged; and `{"start_cursor": "", "query": "foo"}` maps to
`{"query": "foo"}`. -/
theorem clean_tool_arguments_spec :
    (∀ (kvs : JObj) (k : String), NodupKeys kvs →
      dGet? (cleanPairs kvs) k = (dGet? kvs k).bind (fun v =>
        if hasSub (strLower k).data "cursor".data && isBlankStr v then none
        else some (clean_tool_arguments v)))
    ∧ (∀ v : Json, (∀ kvs, v ≠ .obj kvs) → clean_tool_arguments v = v)
    ∧ clean_tool_arguments (.obj [("start_cursor", .str ""), ("query", .str "foo")]) =
        .obj [("query", .str "foo")] := by
  refine ⟨fun kvs k h => ?_, fun v hv => ?_, rfl⟩
  · rw [← isCursorKey_eq]
    exact dGet?_cleanPairs kvs k h
  · cases v with
    | obj kvs => exact absurd rfl (hv kvs)
    | null => rfl
    | bool b => rfl
    | num n => rfl
    | str s => rfl
    | arr xs => rfl

/-- C8 witness: the characterization applied at a concrete input with
duplicate-free keys. -/
theorem clean_tool_arguments_spec_witness :
    dGet? (cleanPairs [("start_cursor", .str " "), ("query", .str "foo")]) "start_cursor" =
      none := by
  rw [clean_tool_arguments_spec.1 [("start_cursor", .str " "), ("query", .str "foo")]
    "start_cursor" (by simp only [NodupKeys]; decide)]
  rfl

theorem dGet?_ensureKey_ne (l : JObj) {k' k : String} (v : Json) (h : k' ≠ k) :
    dGet? (ensureKey l k' v) k = dGet? l k := by
  unfold ensureKey
  by_cases hm : dMem l k' <;> simp [hm, dGet?_dSet_ne _ _ h]

theorem dGet?_ensureKey_self (l : JObj) (k : String) (v : Json) :
    dGet? (ensureKey l k v) k = some ((dGet? l k).getD v) := by
  unfold ensureKey
  by_cases hm : dMem l k
  · obtain ⟨x, hx⟩ := Option.isSome_iff_exists.mp hm
    simp [hm, hx]
  · have : dGet? l k = none := Option.not_isSome_iff_eq_none.mp (by simpa [dMem] using hm)
    simp [hm, this, dGet?_dSet_self]

/-! ## C7: tool normalization -/

/-- C7 counterexample: a tool whose schema type is `"banana"` passes
through `fix_tool_definition` unchanged, so the output's
`inputSchema.type` is not among the seven JSON-Schema types; the claimed
membership fails. -/
theorem fix_tool_definition_type_not_valid :
    fix_tool_definition 0 (.obj [("name", .str "t"), ("description", .str "d"),
        ("inputSchema", .obj [("type", .str "banana")])]) =
      .ok (.obj [("name", .str "t"), ("description", .str "d"),
        ("inputSchema", .obj [("type", .str "banana")])]) ∧
    validSchemaTypes.contains "banana" = false :=
  ⟨rfl, rfl⟩

/-- C7 amended: for every tool object, `fix_tool_definition` yields a tool
whose `inputSchema` is an object with a `type` field; that field is
`"object"` when the input's `inputSchema` was missing, not an object, or
without `type`, and is otherwise the input's own `type` value passed
through unchanged — so it lies in
`object|array|string|number|integer|boolean|null` exactly when the input's
already did (or was defaulted). -/
theorem fix_tool_definition_schema_type (idAddr : Nat) (kvs : JObj) :
    ∃ out : JObj, fix_tool_definition idAddr (.obj kvs) = .ok (.obj out) ∧
      schemaTypeOf out = some (expectedSchemaType kvs) := by
  have hbase : dGet? (ensureKey (ensureKey (ensureKey kvs
        "name" (.str ("Tool-" ++ toString idAddr)))
        "description" (.str "No description provided"))
      "inputSchema" (.obj [("type", .str "object"), ("properties", .obj [])]))
      "inputSchema" = some ((dGet? kvs "inputSchema").getD
        (.obj [("type", .str "object"), ("properties", .obj [])])) := by
    rw [dGet?_ensureKey_self, dGet?_ensureKey_ne _ _ (by decide),
      dGet?_ensureKey_ne _ _ (by decide)]
  refine ⟨_, rfl, ?_⟩
  simp only [dGetD, hbase, Option.getD_some]
  cases his : dGet? kvs "inputSchema" with
  | none =>
    simp only [Option.getD_none, dMem, dGet?, Option.isSome_some, if_pos]
    simp [schemaTypeOf, expectedSchemaType, hbase, his, dGet?]
  | some v =>
    cases v with
    | obj sk0 =>
      by_cases ht : dMem sk0 "type"
      · obtain ⟨t0, ht0⟩ := Option.isSome_iff_exists.mp ht
        simp only [Option.getD_some, ht, if_pos]
        simp [schemaTypeOf, expectedSchemaType, hbase, his, dGetD, ht0]
      · simp only [Option.getD_some, ht, if_neg, Bool.false_eq_true, not_false_iff]
        simp [schemaTypeOf, expectedSchemaType, his, dGetD,
          dGet?_dSet_self, dGet?_ensureKey_ne _ _ (show ("properties" : String) ≠ "type" by decide),
          Option.not_isSome_iff_eq_none.mp ht]
    | null =>
      simp [schemaTypeOf, expectedSchemaType, his, dGet?_dSet_self, dGet?]
    | bool b =>
      simp [schemaTypeOf, expectedSchemaType, his, dGet?_dSet_self, dGet?]
    | num n =>
      simp [schemaTypeOf, expectedSchemaType, his, dGet?_dSet_self, dGet?]
    | str s =>
      simp [schemaTypeOf, expectedSchemaType, his, dGet?_dSet_self, dGet?]
    | arr xs =>
      simp [schemaTypeOf, expectedSchemaType, his, dGet?_dSet_self, dGet?]

/-! ## C5 and C6: `ensure_jsonrpc_response` -/

/-- C6 (code-bug evidence): for non-dict values the function raises
`AttributeError` at `response.get("id", request_id)` instead of wrapping
the value as `{"result": value}` — the intended non-dict branch further
down is unreachable. -/
theorem ensure_jsonrpc_response_nondict_raises :
    ensure_jsonrpc_response (.str "hello") (.num 1) = .error "AttributeError" ∧
    ensure_jsonrpc_response (.arr []) (.num 1) = .error "AttributeError" ∧
    ensure_jsonrpc_response (.num 7) (.num 1) = .error "AttributeError" ∧
    ensure_jsonrpc_response .null (.num 1) = .error "AttributeError" :=
  ⟨rfl, rfl, rfl, rfl⟩

theorem ensureRebuild_result_shape (idv y i : Json) :
    ensureRebuild [("jsonrpc", .str "2.0"), ("id", idv), ("result", y)] i =
      [("jsonrpc", .str "2.0"), ("id", idv), ("result", y)] := by
  simp [ensureRebuild, dMem, dGet?, dGetD,
    (show ("jsonrpc" : String) ≠ "error" by decide),
    (show ("id" : String) ≠ "error" by decide),
    (show ("result" : String) ≠ "error" by decide),
    (show ("jsonrpc" : String) ≠ "result" by decide),
    (show ("id" : String) ≠ "result" by decide),
    (show ("jsonrpc" : String) ≠ "id" by decide)]

theorem ensureRebuild_error_shape (idv e i : Json) (he : errWellFormed e = true) :
    ensureRebuild [("jsonrpc", .str "2.0"), ("id", idv), ("error", e)] i =
      [("jsonrpc", .str "2.0"), ("id", idv), ("error", e)] := by
  simp [ensureRebuild, dMem, dGet?, dGetD, he,
    (show ("jsonrpc" : String) ≠ "error" by decide),
    (show ("id" : String) ≠ "error" by decide),
    (show ("jsonrpc" : String) ≠ "id" by decide)]

theorem ensureRebuild_fixpoint (kvs : JObj) (i : Json) :
    ensureRebuild (ensureRebuild kvs i) i = ensureRebuild kvs i := by
  by_cases h1 : dMem kvs "error"
  · by_cases h2 : errWellFormed (dGetD kvs "error" .null)
    · rw [show ensureRebuild kvs i = [("jsonrpc", .str "2.0"), ("id", dGetD kvs "id" i),
          ("error", dGetD kvs "error" .null)] from by
        simp only [ensureRebuild]
        rw [if_pos h1, if_pos h2]
        rfl]
      exact ensureRebuild_error_shape _ _ _ h2
    · rw [show ensureRebuild kvs i = [("jsonrpc", .str "2.0"), ("id", dGetD kvs "id" i),
          ("error", .obj [("code", .num (-32603)),
            ("message", .str (if pyTruthy (dGetD kvs "error" .null) then
              pyStr (dGetD kvs "error" .null) else "Internal error"))])] from by
        simp only [ensureRebuild]
        rw [if_pos h1, if_neg h2]
        rfl]
      exact ensureRebuild_error_shape _ _ _ (by simp [errWellFormed, dMem, dGet?,
        (show ("code" : String) ≠ "message" by decide)])
  · by_cases h3 : dMem kvs "result"
    · rw [show ensureRebuild kvs i = [("jsonrpc", .str "2.0"), ("id", dGetD kvs "id" i),
          ("result", dGetD kvs "result" .null)] from by
        simp only [ensureRebuild]
        rw [if_neg h1, if_pos h3]
        rfl]
      exact ensureRebuild_result_shape _ _ _
    · rw [show ensureRebuild kvs i = [("jsonrpc", .str "2.0"), ("id", dGetD kvs "id" i),
          ("result", if !(kvs.filter (fun kv => !(kv.1 == "jsonrpc") && !(kv.1 == "id"))).isEmpty
            then .obj (kvs.filter (fun kv => !(kv.1 == "jsonrpc") && !(kv.1 == "id")))
            else .obj kvs)] from by
        simp only [ensureRebuild]
        rw [if_neg h1, if_neg h3]
        rfl]
      exact ensureRebuild_result_shape _ _ _

/-- C5: `ensure_jsonrpc_response` is idempotent — whenever it returns a
response at all (dict inputs; non-dict inputs raise, see C6), applying it
again to that response with the same request id returns the response
unchanged. -/
theorem ensure_jsonrpc_response_idem (r i o : Json)
    (h : ensure_jsonrpc_response r i = .ok o) :
    ensure_jsonrpc_response o i = .ok o := by
  cases r with
  | obj kvs =>
    simp only [ensure_jsonrpc_response] at h
    by_cases h1 : (dMem kvs "jsonrpc" && validate_jsonrpc_response kvs) = true
    · rw [if_pos h1] at h
      injection h with h'
      subst h'
      simp only [ensure_jsonrpc_response]
      rw [if_pos h1]
    · rw [if_neg h1] at h
      injection h with h'
      subst h'
      simp only [ensure_jsonrpc_response]
      by_cases h2 : (dMem (ensureRebuild kvs i) "jsonrpc" &&
          validate_jsonrpc_response (ensureRebuild kvs i)) = true
      · rw [if_pos h2]
      · rw [if_neg h2, ensureRebuild_fixpoint]
  | null => exact absurd h (by simp [ensure_jsonrpc_response])
  | bool b => exact absurd h (by simp [ensure_jsonrpc_response])
  | num n => exact absurd h (by simp [ensure_jsonrpc_response])
  | str s => exact absurd h (by simp [ensure_jsonrpc_response])
  | arr xs => exact absurd h (by simp [ensure_jsonrpc_response])

/-- C5 witness: the idempotence theorem applied to the output of the
function on the empty dict. -/
theorem ensure_jsonrpc_response_idem_witness :
    ensure_jsonrpc_response
      (.obj [("jsonrpc", .str "2.0"), ("id", .null), ("result", .obj [])]) .null =
      .ok (.obj [("jsonrpc", .str "2.0"), ("id", .null), ("result", .obj [])]) :=
  ensure_jsonrpc_response_idem (.obj []) .null _ rfl

/-! ## C4: initialize-response normalization -/

theorem NodupKeys_ensureKey {l : JObj} (k : String) (v : Json) (h : NodupKeys l) :
    NodupKeys (ensureKey l k v) := by
  unfold ensureKey
  by_cases hm : dMem l k
  · simpa [hm]
  · simpa [hm] using NodupKeys_dSet k v h

theorem exceptBind_ok {α β : Type} (a : α) (f : α → Except String β) :
    (Except.ok a : Except String α) >>= f = f a := rfl

theorem dropWhile_head?_false (p : Char → Bool) (l : List Char) (a : Char)
    (h : (l.dropWhile p).head? = some a) : p a = false := by
  induction l with
  | nil => simp [List.dropWhile] at h
  | cons x xs ih =>
    by_cases hx : p x
    · rw [List.dropWhile_cons, if_pos hx] at h
      exact ih h
    · rw [List.dropWhile_cons, if_neg hx] at h
      simp only [List.head?_cons, Option.some.injEq] at h
      subst h
      simpa using hx

theorem dropWhile_suffix (p : Char → Bool) (l : List Char) :
    List.IsSuffix (l.dropWhile p) l := by
  induction l with
  | nil => simp
  | cons x xs ih =>
    by_cases hx : p x
    · rw [List.dropWhile_cons, if_pos hx]
      exact ih.trans (List.suffix_cons x xs)
    · rw [List.dropWhile_cons, if_neg hx]

theorem stripChars_idem (l : List Char) : stripChars (stripChars l) = stripChars l := by
  unfold stripChars
  generalize hl1 : l.dropWhile isPyWs = l1
  generalize hl2 : (l1.reverse.dropWhile isPyWs).reverse = l2
  have hA : l2.dropWhile isPyWs = l2 := by
    cases hx : l2 with
    | nil => rfl
    | cons b u =>
      have hsuf : List.IsSuffix l2.reverse l1.reverse := by
        rw [← hl2, List.reverse_reverse]
        exact dropWhile_suffix _ _
      have hpre : List.IsPrefix l2 l1 := List.reverse_suffix.mp hsuf
      obtain ⟨w, hw⟩ := hpre
      have hhead : l1.head? = some b := by
        rw [← hw, hx]
        rfl
      have hpb : isPyWs b = false := by
        apply dropWhile_head?_false isPyWs l b
        rw [hl1]
        exact hhead
      rw [List.dropWhile_cons, if_neg (by simp [hpb])]
  have hrev : l2.reverse = l1.reverse.dropWhile isPyWs := by
    rw [← hl2, List.reverse_reverse]
  rw [hA, hrev, List.dropWhile_idempotent, ← hrev, List.reverse_reverse]

theorem pyStrip_idem (s : String) : pyStrip (pyStrip s) = pyStrip s :=
  congrArg String.mk (stripChars_idem s.data)

theorem siEnsureName_obj (sik : JObj) :
    siEnsureName (.obj sik) = .ok (.obj (ensureKey sik "name" (.str "Unknown"))) := by
  have hs : siEnsureName (.obj sik) = (if dMem sik "name" then Except.ok (Json.obj sik)
      else Except.ok (.obj (dSet sik "name" (.str "Unknown")))) := rfl
  rw [hs, ensureKey]
  by_cases h : dMem sik "name" <;> simp [h]

theorem siEnsureVersion_obj (sik : JObj) :
    siEnsureVersion (.obj sik) = .ok (.obj (ensureKey sik "version" (.str "1.0.0"))) := by
  have hs : siEnsureVersion (.obj sik) = (if dMem sik "version" then Except.ok (Json.obj sik)
      else Except.ok (.obj (dSet sik "version" (.str "1.0.0")))) := rfl
  rw [hs, ensureKey]
  by_cases h : dMem sik "version" <;> simp [h]

theorem siPopInstructions_spec (s2 top : JObj) (hnd : NodupKeys s2) :
    ∃ s3 top1 : JObj, siPopInstructions (.obj s2) top = .ok (.obj s3, top1) ∧
      dMem s3 "instructions" = false ∧
      NodupKeys s3 ∧
      (∀ k, k ≠ "instructions" → dGet? s3 k = dGet? s2 k) ∧
      (∀ v, dGet? s2 "instructions" = some v → pyTruthy v = true →
        pyStrip (pyStr v) ≠ "" →
        top1 = dSet top "instructions" (.str (pyStrip (pyStr v)))) ∧
      (top1 = top ∨ ∃ w : String, top1 = dSet top "instructions" (.str w)) := by
  have hshape : siPopInstructions (.obj s2) top = (if dMem s2 "instructions" then
      Except.ok (Json.obj (dRemove s2 "instructions"),
        if pyTruthy (dGetD s2 "instructions" .null) &&
            !(pyStrip (pyStr (dGetD s2 "instructions" .null)) == "") then
          dSet top "instructions" (.str (pyStrip (pyStr (dGetD s2 "instructions" .null))))
        else top)
    else Except.ok (.obj s2, top)) := rfl
  by_cases hi : dMem s2 "instructions"
  · refine ⟨dRemove s2 "instructions",
      (if pyTruthy (dGetD s2 "instructions" .null) &&
          !(pyStrip (pyStr (dGetD s2 "instructions" .null)) == "") then
        dSet top "instructions" (.str (pyStrip (pyStr (dGetD s2 "instructions" .null))))
      else top), ?_, ?_, NodupKeys_dRemove _ hnd, ?_, ?_, ?_⟩
    · rw [hshape, if_pos hi]
    · simp [dMem, dGet?_dRemove_self _ hnd]
    · intro k hk
      exact dGet?_dRemove_ne _ (Ne.symm hk)
    · intro v hv ht hs
      have hval : dGetD s2 "instructions" .null = v := by simp [dGetD, hv]
      rw [hval, if_pos (by simp [ht, hs])]
    · by_cases hc : (pyTruthy (dGetD s2 "instructions" .null) &&
          !(pyStrip (pyStr (dGetD s2 "instructions" .null)) == "")) = true
      · exact Or.inr ⟨_, by rw [if_pos hc]⟩
      · exact Or.inl (by rw [if_neg hc])
  · refine ⟨s2, top, ?_, by simpa [dMem] using hi, hnd, fun k hk => rfl, ?_, Or.inl rfl⟩
    · rw [hshape, if_neg hi]
    · intro v hv ht hs
      rw [dMem, hv] at hi
      simp at hi

theorem siPopDescription_spec (s3 : JObj) (hnd : NodupKeys s3) :
    ∃ s4 : JObj, siPopDescription (.obj s3) = .ok (.obj s4) ∧
      dMem s4 "description" = false ∧
      (∀ k, k ≠ "description" → dGet? s4 k = dGet? s3 k) := by
  have hshape : siPopDescription (.obj s3) = (if dMem s3 "description" then
      Except.ok (Json.obj (dRemove s3 "description")) else Except.ok (.obj s3)) := rfl
  by_cases hd : dMem s3 "description"
  · refine ⟨dRemove s3 "description", ?_, ?_, ?_⟩
    · rw [hshape, if_pos hd]
    · simp [dMem, dGet?_dRemove_self _ hnd]
    · intro k hk
      exact dGet?_dRemove_ne _ (Ne.symm hk)
  · refine ⟨s3, ?_, by simpa [dMem] using hd, fun k hk => rfl⟩
    rw [hshape, if_neg hd]

theorem fixServerInfo_obj_spec (sik top : JObj) (hnd : NodupKeys sik) :
    ∃ sik' top1 : JObj,
      fixServerInfo (.obj sik) top = .ok (.obj sik', top1) ∧
      dMem sik' "instructions" = false ∧
      dMem sik' "description" = false ∧
      (∀ v, dGet? sik "instructions" = some v → pyTruthy v = true →
        pyStrip (pyStr v) ≠ "" →
        top1 = dSet top "instructions" (.str (pyStrip (pyStr v)))) ∧
      (top1 = top ∨ ∃ w : String, top1 = dSet top "instructions" (.str w)) := by
  have hs2nd : NodupKeys (ensureKey (ensureKey sik "name" (.str "Unknown"))
      "version" (.str "1.0.0")) :=
    NodupKeys_ensureKey _ _ (NodupKeys_ensureKey _ _ hnd)
  have hgetI : dGet? (ensureKey (ensureKey sik "name" (.str "Unknown"))
      "version" (.str "1.0.0")) "instructions" = dGet? sik "instructions" := by
    rw [dGet?_ensureKey_ne _ _ (by decide), dGet?_ensureKey_ne _ _ (by decide)]
  obtain ⟨s3, top1, hpi, h3i, h3nd, h3get, htop, hshape⟩ :=
    siPopInstructions_spec (ensureKey (ensureKey sik "name" (.str "Unknown"))
      "version" (.str "1.0.0")) top hs2nd
  obtain ⟨s4, hpd, h4d, h4get⟩ := siPopDescription_spec s3 h3nd
  refine ⟨s4, top1, ?_, ?_, h4d, ?_, hshape⟩
  · have hchain : fixServerInfo (.obj sik) top =
        (siPopInstructions (.obj (ensureKey (ensureKey sik "name" (.str "Unknown"))
            "version" (.str "1.0.0"))) top >>= fun st =>
          siPopDescription st.1 >>= fun si4 => pure (si4, st.2)) := by
      simp only [fixServerInfo, siEnsureName_obj, exceptBind_ok, siEnsureVersion_obj]
    rw [hchain]
    simp only [hpi, exceptBind_ok, hpd]
    rfl
  · rw [dMem, h4get "instructions" (by decide)]
    rw [dMem] at h3i
    exact h3i
  · intro v hv ht hs
    exact htop v (by rw [← hgetI] at hv; exact hv) ht hs

theorem exceptBind_err {α β : Type} (e : String) (f : α → Except String β) :
    (Except.error e : Except String α) >>= f = .error e := rfl

theorem siPopInstructions_top_shape (si : Json) (top : JObj) (st : Json × JObj)
    (h : siPopInstructions si top = .ok st) :
    st.2 = top ∨ ∃ w : String, st.2 = dSet top "instructions" (.str w) := by
  cases si with
  | obj s2 =>
    rw [show siPopInstructions (.obj s2) top = (if dMem s2 "instructions" then
        Except.ok (Json.obj (dRemove s2 "instructions"),
          if pyTruthy (dGetD s2 "instructions" .null) &&
              !(pyStrip (pyStr (dGetD s2 "instructions" .null)) == "") then
            dSet top "instructions" (.str (pyStrip (pyStr (dGetD s2 "instructions" .null))))
          else top)
      else Except.ok (.obj s2, top)) from rfl] at h
    by_cases hi : dMem s2 "instructions"
    · rw [if_pos hi] at h
      injection h with h'
      subst h'
      by_cases hc : (pyTruthy (dGetD s2 "instructions" .null) &&
          !(pyStrip (pyStr (dGetD s2 "instructions" .null)) == "")) = true
      · exact Or.inr ⟨_, by rw [if_pos hc]⟩
      · exact Or.inl (by rw [if_neg hc])
    · rw [if_neg hi] at h
      injection h with h'
      subst h'
      exact Or.inl rfl
  | str s =>
    rw [show siPopInstructions (.str s) top = (if hasSub s.data "instructions".data then
        Except.error "AttributeError" else Except.ok (.str s, top)) from rfl] at h
    by_cases hc : hasSub s.data "instructions".data
    · rw [if_pos hc] at h
      exact absurd h (by simp)
    · rw [if_neg hc] at h
      injection h with h'
      subst h'
      exact Or.inl rfl
  | arr xs =>
    rw [show siPopInstructions (.arr xs) top = (if xs.any (fun x => x == .str "instructions") then
        Except.error "TypeError" else Except.ok (.arr xs, top)) from rfl] at h
    by_cases hc : xs.any (fun x => x == .str "instructions")
    · rw [if_pos hc] at h
      exact absurd h (by simp)
    · rw [if_neg hc] at h
      injection h with h'
      subst h'
      exact Or.inl rfl
  | null => exact absurd h (by simp [show siPopInstructions .null top = .error "TypeError" from rfl])
  | bool b => exact absurd h (by simp [show siPopInstructions (.bool b) top = .error "TypeError" from rfl])
  | num n => exact absurd h (by simp [show siPopInstructions (.num n) top = .error "TypeError" from rfl])

theorem fixServerInfo_top_shape (si0 : Json) (top : JObj) (st : Json × JObj)
    (h : fixServerInfo si0 top = .ok st) :
    st.2 = top ∨ ∃ w : String, st.2 = dSet top "instructions" (.str w) := by
  unfold fixServerInfo at h
  cases h1 : siEnsureName si0 with
  | error e => rw [h1, exceptBind_err] at h; exact absurd h (by simp)
  | ok si1 =>
    rw [h1, exceptBind_ok] at h
    cases h2 : siEnsureVersion si1 with
    | error e => rw [h2, exceptBind_err] at h; exact absurd h (by simp)
    | ok si2 =>
      rw [h2, exceptBind_ok] at h
      cases h3 : siPopInstructions si2 top with
      | error e => rw [h3, exceptBind_err] at h; exact absurd h (by simp)
      | ok stp =>
        rw [h3, exceptBind_ok] at h
        cases h4 : siPopDescription stp.1 with
        | error e => rw [h4, exceptBind_err] at h; exact absurd h (by simp)
        | ok si4 =>
          rw [h4, exceptBind_ok] at h
          injection h with h'
          subst h'
          exact siPopInstructions_top_shape si2 top stp h3

theorem finalInstructionsFilter_spec (f6 : JObj) (hnd : NodupKeys f6) :
    ∀ v, dGet? (finalInstructionsFilter f6) "instructions" = some v →
      pyTruthy v = true ∧ pyStrip (pyStr v) ≠ "" := by
  intro v hv
  unfold finalInstructionsFilter at hv
  cases hfi : dGet? f6 "instructions" with
  | none => simp only [hfi] at hv; exact absurd (hfi ▸ hv) (by simp [hfi])
  | some w =>
    simp only [hfi] at hv
    by_cases hc : (pyTruthy w && !(pyStrip (pyStr w) == "")) = true
    · rw [if_pos hc, hfi] at hv
      injection hv with hv'
      subst hv'
      simp only [Bool.and_eq_true, Bool.not_eq_true', beq_eq_false_iff_ne] at hc
      exact hc
    · rw [if_neg hc, dGet?_dRemove_self _ hnd] at hv
      exact absurd hv (by simp)

theorem finalInstructionsFilter_get_ne (f6 : JObj) (k : String) (hk : k ≠ "instructions") :
    dGet? (finalInstructionsFilter f6) k = dGet? f6 k := by
  unfold finalInstructionsFilter
  cases hfi : dGet? f6 "instructions" with
  | none => rfl
  | some w =>
    simp only [hfi]
    by_cases hc : (pyTruthy w && !(pyStrip (pyStr w) == "")) = true
    · rw [if_pos hc]
    · rw [if_neg hc]
      exact dGet?_dRemove_ne _ (Ne.symm hk)

theorem finalInstructionsFilter_keeps (f6 : JObj) (w : String)
    (hfi : dGet? f6 "instructions" = some (.str w))
    (hw : w ≠ "") (hfix : pyStrip w = w) :
    dGet? (finalInstructionsFilter f6) "instructions" = some (.str w) := by
  unfold finalInstructionsFilter
  simp only [hfi]
  rw [if_pos (by simp [pyTruthy, pyStr, hfix, hw])]
  exact hfi

theorem exceptPure_bind {α β : Type} (a : α) (f : α → Except String β) :
    (pure a : Except String α) >>= f = f a := rfl

/-- C4 (amended): on every dict input with Python-representable keys on
which `fix_initialization_response` succeeds: (1) a top-level
`instructions` in the output is truthy and non-blank after stripping; (2)
whenever the input's `serverInfo` is absent or an object, the output's
`serverInfo` is an object containing neither `instructions` nor
`description`; (3) a truthy, non-blank `instructions` value found inside
an object `serverInfo` appears stripped as the top-level `instructions`.
The input may also carry a non-object `serverInfo`, which the code passes
through untouched — see the counterexample. -/
theorem fix_initialization_response_spec (kvs out : JObj)
    (hnd : NodupKeys kvs)
    (hsi : ∀ sik, dGet? kvs "serverInfo" = some (.obj sik) → NodupKeys sik)
    (h : fix_initialization_response (.obj kvs) = .ok (.obj out)) :
    (∀ v, dGet? out "instructions" = some v →
      pyTruthy v = true ∧ pyStrip (pyStr v) ≠ "")
    ∧ ((dGet? kvs "serverInfo" = none ∨
        (∃ sik, dGet? kvs "serverInfo" = some (.obj sik))) →
      ∃ sik' : JObj, dGet? out "serverInfo" = some (.obj sik') ∧
        dMem sik' "instructions" = false ∧ dMem sik' "description" = false)
    ∧ (∀ sik v, dGet? kvs "serverInfo" = some (.obj sik) →
      dGet? sik "instructions" = some v → pyTruthy v = true →
      pyStrip (pyStr v) ≠ "" →
      dGet? out "instructions" = some (.str (pyStrip (pyStr v)))) := by
  simp only [fix_initialization_response] at h
  split at h
  case h_2 =>
    rw [exceptBind_err] at h
    exact absurd h (by simp)
  case h_1 cap hcap =>
    rw [exceptPure_bind] at h
    have hndf3 : NodupKeys (dSet (ensureKey (ensureKey kvs "protocolVersion"
        (.str "2025-03-26")) "capabilities" (.obj [])) "capabilities"
        (.obj (fixCapabilities cap))) :=
      NodupKeys_dSet _ _ (NodupKeys_ensureKey _ _ (NodupKeys_ensureKey _ _ hnd))
    have hndf4 : NodupKeys (ensureKey (dSet (ensureKey (ensureKey kvs "protocolVersion"
        (.str "2025-03-26")) "capabilities" (.obj [])) "capabilities"
        (.obj (fixCapabilities cap))) "serverInfo"
        (.obj [("name", .str "Unknown"), ("version", .str "1.0.0")])) :=
      NodupKeys_ensureKey _ _ hndf3
    have hsival : dGetD (ensureKey (dSet (ensureKey (ensureKey kvs "protocolVersion"
        (.str "2025-03-26")) "capabilities" (.obj [])) "capabilities"
        (.obj (fixCapabilities cap))) "serverInfo"
        (.obj [("name", .str "Unknown"), ("version", .str "1.0.0")])) "serverInfo" .null =
        (dGet? kvs "serverInfo").getD
          (.obj [("name", .str "Unknown"), ("version", .str "1.0.0")]) := by
      rw [dGetD, dGet?_ensureKey_self, Option.getD_some, dGet?_dSet_ne _ _ (by decide),
        dGet?_ensureKey_ne _ _ (by decide), dGet?_ensureKey_ne _ _ (by decide)]
    rw [hsival] at h
    cases hks : dGet? kvs "serverInfo" with
    | none =>
      rw [hks, Option.getD_none] at h
      rw [show fixServerInfo (.obj [("name", .str "Unknown"), ("version", .str "1.0.0")])
          (ensureKey (dSet (ensureKey (ensureKey kvs "protocolVersion"
            (.str "2025-03-26")) "capabilities" (.obj [])) "capabilities"
            (.obj (fixCapabilities cap))) "serverInfo"
            (.obj [("name", .str "Unknown"), ("version", .str "1.0.0")])) =
          .ok (.obj [("name", .str "Unknown"), ("version", .str "1.0.0")],
            ensureKey (dSet (ensureKey (ensureKey kvs "protocolVersion"
              (.str "2025-03-26")) "capabilities" (.obj [])) "capabilities"
              (.obj (fixCapabilities cap))) "serverInfo"
              (.obj [("name", .str "Unknown"), ("version", .str "1.0.0")])) from rfl] at h
      rw [exceptBind_ok] at h
      injection h with h'
      injection h' with h''
      subst h''
      have hndf6 : NodupKeys (dSet (ensureKey (dSet (ensureKey (ensureKey kvs
          "protocolVersion" (.str "2025-03-26")) "capabilities" (.obj []))
          "capabilities" (.obj (fixCapabilities cap))) "serverInfo"
          (.obj [("name", .str "Unknown"), ("version", .str "1.0.0")])) "serverInfo"
          (.obj [("name", .str "Unknown"), ("version", .str "1.0.0")])) :=
        NodupKeys_dSet _ _ hndf4
      refine ⟨fun v hv => finalInstructionsFilter_spec _ hndf6 v hv, ?_, ?_⟩
      · intro _
        refine ⟨[("name", .str "Unknown"), ("version", .str "1.0.0")], ?_, by decide, by decide⟩
        rw [finalInstructionsFilter_get_ne _ _ (by decide), dGet?_dSet_self]
      · intro sik v hks2 _ _ _
        exact absurd hks2 (by simp)
    | some v0 =>
      rw [hks, Option.getD_some] at h
      cases v0 with
      | obj sik =>
        obtain ⟨sik', top1, hfix, hsi1, hsi2, htop, hshape⟩ :=
          fixServerInfo_obj_spec sik _ (hsi sik hks)
        rw [hfix] at h
        rw [exceptBind_ok] at h
        injection h with h'
        injection h' with h''
        subst h''
        have hndtop1 : NodupKeys top1 := by
          rcases hshape with rfl | ⟨w, rfl⟩
          · exact hndf4
          · exact NodupKeys_dSet _ _ hndf4
        have hndf6 : NodupKeys (dSet top1 "serverInfo" (.obj sik')) :=
          NodupKeys_dSet _ _ hndtop1
        refine ⟨fun v hv => finalInstructionsFilter_spec _ hndf6 v hv, ?_, ?_⟩
        · intro _
          refine ⟨sik', ?_, hsi1, hsi2⟩
          rw [finalInstructionsFilter_get_ne _ _ (by decide), dGet?_dSet_self]
        · intro sik0 v hks2 hv ht hs
          injection hks2 with hks3
          injection hks3 with hks4
          subst hks4
          have htop1 : top1 = dSet (ensureKey (dSet (ensureKey (ensureKey kvs
              "protocolVersion" (.str "2025-03-26")) "capabilities" (.obj []))
              "capabilities" (.obj (fixCapabilities cap))) "serverInfo"
              (.obj [("name", .str "Unknown"), ("version", .str "1.0.0")]))
              "instructions" (.str (pyStrip (pyStr v))) := htop v hv ht hs
          apply finalInstructionsFilter_keeps
          · rw [dGet?_dSet_ne _ _ (by decide), htop1, dGet?_dSet_self]
          · exact hs
          · exact pyStrip_idem (pyStr v)
      | null =>
        cases hfs : fixServerInfo .null _ with
        | error e => rw [hfs, exceptBind_err] at h; exact absurd h (by simp)
        | ok st =>
          rw [hfs, exceptBind_ok] at h
          injection h with h'
          injection h' with h''
          subst h''
          have hndst2 : NodupKeys st.2 := by
            rcases fixServerInfo_top_shape _ _ _ hfs with he | ⟨w, he⟩ <;> rw [he]
            · exact hndf4
            · exact NodupKeys_dSet _ _ hndf4
          refine ⟨fun v hv => finalInstructionsFilter_spec _ (NodupKeys_dSet _ _ hndst2) v hv,
            ?_, ?_⟩
          · intro hd
            rcases hd with hd | ⟨sik, hd⟩ <;> simp at hd
          · intro sik v hks2 _ _ _
            simp at hks2
      | bool b =>
        cases hfs : fixServerInfo (.bool b) _ with
        | error e => rw [hfs, exceptBind_err] at h; exact absurd h (by simp)
        | ok st =>
          rw [hfs, exceptBind_ok] at h
          injection h with h'
          injection h' with h''
          subst h''
          have hndst2 : NodupKeys st.2 := by
            rcases fixServerInfo_top_shape _ _ _ hfs with he | ⟨w, he⟩ <;> rw [he]
            · exact hndf4
            · exact NodupKeys_dSet _ _ hndf4
          refine ⟨fun v hv => finalInstructionsFilter_spec _ (NodupKeys_dSet _ _ hndst2) v hv,
            ?_, ?_⟩
          · intro hd
            rcases hd with hd | ⟨sik, hd⟩ <;> simp at hd
          · intro sik v hks2 _ _ _
            simp at hks2
      | num n =>
        cases hfs : fixServerInfo (.num n) _ with
        | error e => rw [hfs, exceptBind_err] at h; exact absurd h (by simp)
        | ok st =>
          rw [hfs, exceptBind_ok] at h
          injection h with h'
          injection h' with h''
          subst h''
          have hndst2 : NodupKeys st.2 := by
            rcases fixServerInfo_top_shape _ _ _ hfs with he | ⟨w, he⟩ <;> rw [he]
            · exact hndf4
            · exact NodupKeys_dSet _ _ hndf4
          refine ⟨fun v hv => finalInstructionsFilter_spec _ (NodupKeys_dSet _ _ hndst2) v hv,
            ?_, ?_⟩
          · intro hd
            rcases hd with hd | ⟨sik, hd⟩ <;> simp at hd
          · intro sik v hks2 _ _ _
            simp at hks2
      | str s =>
        cases hfs : fixServerInfo (.str s) _ with
        | error e => rw [hfs, exceptBind_err] at h; exact absurd h (by simp)
        | ok st =>
          rw [hfs, exceptBind_ok] at h
          injection h with h'
          injection h' with h''
          subst h''
          have hndst2 : NodupKeys st.2 := by
            rcases fixServerInfo_top_shape _ _ _ hfs with he | ⟨w, he⟩ <;> rw [he]
            · exact hndf4
            · exact NodupKeys_dSet _ _ hndf4
          refine ⟨fun v hv => finalInstructionsFilter_spec _ (NodupKeys_dSet _ _ hndst2) v hv,
            ?_, ?_⟩
          · intro hd
            rcases hd with hd | ⟨sik, hd⟩ <;> simp at hd
          · intro sik v hks2 _ _ _
            simp at hks2
      | arr xs =>
        cases hfs : fixServerInfo (.arr xs) _ with
        | error e => rw [hfs, exceptBind_err] at h; exact absurd h (by simp)
        | ok st =>
          rw [hfs, exceptBind_ok] at h
          injection h with h'
          injection h' with h''
          subst h''
          have hndst2 : NodupKeys st.2 := by
            rcases fixServerInfo_top_shape _ _ _ hfs with he | ⟨w, he⟩ <;> rw [he]
            · exact hndf4
            · exact NodupKeys_dSet _ _ hndf4
          refine ⟨fun v hv => finalInstructionsFilter_spec _ (NodupKeys_dSet _ _ hndst2) v hv,
            ?_, ?_⟩
          · intro hd
            rcases hd with hd | ⟨sik, hd⟩ <;> simp at hd
          · intro sik v hks2 _ _ _
            simp at hks2

/-- C4 witness: the theorem applied to a concrete initialize response whose
`serverInfo` carries `instructions: "Hello"`. -/
theorem fix_initialization_response_spec_witness :
    dGet? [("serverInfo", Json.obj [("name", Json.str "X"), ("version", Json.str "1")]),
      ("protocolVersion", Json.str "2025-03-26"),
      ("capabilities", Json.obj [("logging", Json.obj [])]),
      ("instructions", Json.str "Hello")] "instructions" = some (.str "Hello") := by
  have h := (fix_initialization_response_spec
    [("serverInfo", .obj [("name", .str "X"), ("version", .str "1"),
      ("instructions", .str "Hello")])]
    [("serverInfo", Json.obj [("name", Json.str "X"), ("version", Json.str "1")]),
      ("protocolVersion", Json.str "2025-03-26"),
      ("capabilities", Json.obj [("logging", Json.obj [])]),
      ("instructions", Json.str "Hello")]
    (by simp only [NodupKeys]; decide)
    (by intro sik hs; injection hs with hs'; injection hs' with hs''; subst hs'';
        simp only [NodupKeys]; decide)
    rfl).2.2
  have h2 := h [("name", .str "X"), ("version", .str "1"), ("instructions", .str "Hello")]
    (.str "Hello") rfl rfl (by decide) (by decide)
  simpa using h2

/-- C4 counterexample: a response whose `serverInfo` is the *string*
`"name version"` flows through `fix_initialization_response` unchanged, so
the output's `serverInfo` is not an object — the claim's unconditional
"serverInfo object" fails. -/
theorem fix_initialization_response_nonobj_serverInfo :
    fix_initialization_response (.obj [("serverInfo", .str "name version")]) =
      .ok (.obj [("serverInfo", .str "name version"),
        ("protocolVersion", .str "2025-03-26"),
        ("capabilities", .obj [("logging", .obj [])])]) := rfl

/-! ## C1: the exposed-tools invariant on proxy tool lists -/

theorem filterExposed_sound (exposed : List String) (ts : List Json) :
    ∀ out, filterExposed exposed ts = .ok out →
      ∀ t ∈ out, ∃ s, toolGetName t = .ok (.str s) ∧ s ∈ exposed := by
  induction ts with
  | nil =>
    intro out h
    injection h with h'
    subst h'
    intro t ht
    exact absurd ht (by simp)
  | cons t0 ts ih =>
    intro out h
    simp only [filterExposed] at h
    cases hn : toolGetName t0 with
    | error e => rw [hn, exceptBind_err] at h; exact absurd h (by simp)
    | ok n =>
      rw [hn, exceptBind_ok] at h
      cases hr : filterExposed exposed ts with
      | error e => rw [hr, exceptBind_err] at h; exact absurd h (by simp)
      | ok rest =>
        rw [hr, exceptBind_ok] at h
        by_cases hk : pyStrIn n exposed = true
        · rw [if_pos hk] at h
          injection h with h'
          subst h'
          intro t ht
          rcases List.mem_cons.mp ht with rfl | ht'
          · cases n with
            | str s =>
              refine ⟨s, hn, ?_⟩
              simp only [pyStrIn, List.contains] at hk
              exact List.mem_of_elem_eq_true hk
            | null => simp [pyStrIn] at hk
            | bool b => simp [pyStrIn] at hk
            | num m => simp [pyStrIn] at hk
            | arr xs => simp [pyStrIn] at hk
            | obj kvs => simp [pyStrIn] at hk
          · exact ih rest hr t ht'
        · rw [if_neg hk] at h
          injection h with h'
          subst h'
          exact ih rest hr

/-- C1 (amended): whenever `update_proxy_tools` succeeds on a proxy whose
`exposed_tools` is non-empty, the proxy ends up `running` and every tool it
then carries is named by a member of `exposed_tools`.  (The auto-start and
delayed-update paths do not preserve this — see the counterexample.) -/
theorem update_proxy_tools_exposed (servers : List (String × McpServerInstance))
    (p : McpProxyInstance)
    (hok : (update_proxy_tools servers p).ok = true)
    (hne : p.config.exposed_tools ≠ []) :
    (update_proxy_tools servers p).proxy.status = "running" ∧
    (update_proxy_tools servers p).proxy.tools = (update_proxy_tools servers p).tools ∧
    ∀ t ∈ (update_proxy_tools servers p).proxy.tools,
      ∃ s, toolGetName t = .ok (.str s) ∧ s ∈ p.config.exposed_tools := by
  cases hl : lookupA servers p.config.server_name with
  | none =>
    simp only [update_proxy_tools, hl] at hok
    exact absurd hok (by simp)
  | some server =>
    simp only [update_proxy_tools, hl] at hok ⊢
    have hemp : p.config.exposed_tools.isEmpty = false := List.isEmpty_eq_false.mpr hne
    cases hs : (validStatuses server.config.transport_type).contains server.status with
    | false =>
      simp only [hs, Bool.not_false, eq_self_iff_true, if_true] at hok
      exact absurd hok (by simp)
    | true =>
      simp only [hs, Bool.not_true, Bool.false_eq_true, if_false] at hok ⊢
      by_cases hts : server.tools.isEmpty = true
      · simp only [hts, eq_self_iff_true, if_true] at hok
        exact absurd hok (by simp)
      · simp only [hts, if_false] at hok ⊢
        simp only [hemp, Bool.not_false, eq_self_iff_true, if_true] at hok ⊢
        cases hf : filterExposed p.config.exposed_tools server.tools with
        | error e =>
          simp only [hf] at hok
          exact absurd hok (by simp)
        | ok ptools =>
          simp only [hf] at hok ⊢
          exact ⟨rfl, rfl, fun t ht =>
            filterExposed_sound p.config.exposed_tools server.tools ptools hf t ht⟩

/-- C1 witness: the amended theorem applied to the concrete fixtures. -/
theorem update_proxy_tools_exposed_witness :
    (update_proxy_tools [("S", serverS)] proxyP).proxy.status = "running" :=
  (update_proxy_tools_exposed [("S", serverS)] proxyP rfl (by simp [proxyP])).1

/-- C1 counterexample: auto-start (and the delayed tool update) copy the
upstream's tools verbatim, so a running proxy restricted to `get-user`
carries `delete-user` as well. -/
theorem auto_start_copies_unfiltered :
    (autoStartProxy [("S", serverS)] proxyP).status = "running" ∧
    (autoStartProxy [("S", serverS)] proxyP).tools = [toolGetUser, toolDeleteUser] ∧
    (delayedProxyToolUpdate [("S", serverS)] proxyP).tools = [toolGetUser, toolDeleteUser] ∧
    toolGetName toolDeleteUser = .ok (.str "delete-user") ∧
    proxyP.config.exposed_tools.contains "delete-user" = false :=
  ⟨rfl, rfl, rfl, rfl, rfl⟩

/-! ## C2: request filtering against `exposed_tools` -/

/-- C2 (amended): `_process_jsonrpc_request` implements the claimed
filtering — `resources/list` and `resources/templates/list` always get
empty-list successes, and any other method outside a non-empty
`exposed_tools` gets error `-32601`.  `proxy_request`, the dispatch path
the routes actually call, performs no such filtering — see the
counterexample. -/
theorem process_jsonrpc_request_exposed
    (send : Json → Json → Except String Json) (proxy : McpProxyInstance) (kvs : JObj)
    (hne : proxy.config.exposed_tools ≠ []) (m : Json)
    (hm : dGet? kvs "method" = some m) :
    (jeqStr m "resources/list" = true →
      process_jsonrpc_request send proxy (.obj kvs) =
        .ok (jsonrpcResult (dGetD kvs "id" .null) (.obj [("resources", .arr [])])))
    ∧ (jeqStr m "resources/templates/list" = true →
      process_jsonrpc_request send proxy (.obj kvs) =
        .ok (jsonrpcResult (dGetD kvs "id" .null) (.obj [("resourceTemplates", .arr [])])))
    ∧ (jeqStr m "resources/list" = false → jeqStr m "resources/templates/list" = false →
      pyStrIn m proxy.config.exposed_tools = false →
      process_jsonrpc_request send proxy (.obj kvs) =
        .ok (jsonrpcError (dGetD kvs "id" .null) (-32601)
          ("Method " ++ pyStr m ++ " is not exposed in this proxy"))) := by
  have hdm : dMem kvs "method" = true := by simp [dMem, hm]
  have hgd : dGetD kvs "method" .null = m := by simp [dGetD, hm]
  have hemp : proxy.config.exposed_tools.isEmpty = false := List.isEmpty_eq_false.mpr hne
  refine ⟨fun h1 => ?_, fun h2 => ?_, fun h1 h2 h3 => ?_⟩
  · simp only [process_jsonrpc_request, hdm, hgd, h1, Bool.and_true, Bool.true_and, if_pos]
  · simp only [process_jsonrpc_request, hdm, hgd, h2, Bool.and_true, Bool.true_and]
    by_cases h1 : jeqStr m "resources/list" = true
    · rcases m with _ | _ | _ | s | _ | _ <;> simp [jeqStr] at h1 h2 <;> simp_all
    · simp only [h1, Bool.false_eq_true, if_false, if_pos]
  · simp only [process_jsonrpc_request, hdm, hgd, h1, h2, h3, hemp, Bool.and_true,
      Bool.true_and, Bool.not_false, Bool.and_false, Bool.false_eq_true, if_false,
      Bool.and_self, if_pos]

/-- C2 witness: the amended theorem applied to a `tools/call` request under
`exposed_tools = ["get-user"]`. -/
theorem process_jsonrpc_request_exposed_witness :
    process_jsonrpc_request (fun _ _ => .ok .null) proxyP
      (.obj [("jsonrpc", .str "2.0"), ("id", .num 1), ("method", .str "tools/call")]) =
      .ok (jsonrpcError (.num 1) (-32601)
        ("Method tools/call is not exposed in this proxy")) := by
  have h := (process_jsonrpc_request_exposed (fun _ _ => .ok .null) proxyP
    [("jsonrpc", .str "2.0"), ("id", .num 1), ("method", .str "tools/call")]
    (by simp [proxyP]) (.str "tools/call") rfl).2.2 rfl rfl (by simp [pyStrIn, proxyP])
  simpa using h

/-- C2 counterexample: `proxy_request` forwards a `tools/call` for a
non-exposed tool (indeed, any non-exposed method) to the upstream and
returns its result as a success instead of error `-32601`. -/
theorem proxy_request_ignores_exposed_tools :
    proxy_request (fun _ _ _ => .ok (.str "ok")) [("P", proxyP)] [("S", serverS)] "P"
      [("jsonrpc", .str "2.0"), ("id", .num 1), ("method", .str "tools/call"),
        ("params", .obj [("name", .str "delete-user"), ("arguments", .obj [])])] =
      .ok (jsonrpcResult (.num 1) (.str "ok")) ∧
    proxyP.config.exposed_tools.contains "tools/call" = false ∧
    proxyP.config.exposed_tools.contains "delete-user" = false :=
  ⟨rfl, rfl, rfl⟩

/-! ## C3, C9, C10: rate limiting and session registration -/

theorem getLast?_concatA {α : Type} (a : α) : ∀ l : List α, (l ++ [a]).getLast? = some a
  | [] => rfl
  | _ :: xs => by
    cases xs with
    | nil => rfl
    | cons y ys =>
      show ((y :: ys) ++ [a]).getLast? = some a
      exact getLast?_concatA a (y :: ys)

theorem getLast?_drop_of_lt {α : Type} : ∀ (n : Nat) (l : List α), n < l.length →
    ((l.drop n).getLast? = l.getLast?)
  | 0, _, _ => rfl
  | n+1, [], h => absurd h (by simp)
  | n+1, _ :: xs, h => by
    have hx : n < xs.length := Nat.lt_of_succ_lt_succ h
    rw [List.drop_succ_cons]
    rw [getLast?_drop_of_lt n xs hx]
    cases xs with
    | nil => exact absurd hx (by simp)
    | cons y ys => rfl

theorem getLast?_capped {α : Type} (l : List α) (a : α) :
    (if (l ++ [a]).length > 100 then (l ++ [a]).drop ((l ++ [a]).length - 100)
      else (l ++ [a])).getLast? = some a := by
  by_cases h : (l ++ [a]).length > 100
  · rw [if_pos h, getLast?_drop_of_lt _ _ (by omega)]
    exact getLast?_concatA a l
  · rw [if_neg h]
    exact getLast?_concatA a l

theorem filter_ts_append (l : List Violation) (v : Violation) (now : Int)
    (h : v.timestamp > now - 3600) :
    (l ++ [v]).filter (fun w => w.timestamp > now - 3600) =
      l.filter (fun w => w.timestamp > now - 3600) ++ [v] := by
  rw [List.filter_append]
  simp [List.filter_cons, h]

/-- Recording a violation makes it the client's most recent one. -/
theorem lastViolation_record (st : SessionState) (now : Int)
    (ch pn vt reason : String) (details : JObj) :
    lastViolation (record_rate_limit_violation st now ch pn vt reason details) ch =
      some { timestamp := now, client_host := ch, proxy_name := pn,
             violation_type := vt, reason := reason, details := details,
             severity := calculate_violation_severity vt details } := by
  simp only [lastViolation, record_rate_limit_violation, lookupA_setA_self, Option.getD_some]
  have hfa := filter_ts_append ((lookupA st.rate_limit_violations ch).getD [])
    { timestamp := now, client_host := ch, proxy_name := pn, violation_type := vt,
      reason := reason, details := details,
      severity := calculate_violation_severity vt details } now
    (by show (now : Int) > now - 3600; omega)
  rw [hfa]
  exact getLast?_capped _ _

/-- The cache write after recording does not affect the violation log. -/
theorem lastViolation_record_cache (st : SessionState) (now : Int)
    (ch pn vt reason : String) (details : JObj) (key : String)
    (entry : Int × Bool × String) :
    lastViolation
      { record_rate_limit_violation st now ch pn vt reason details with
        rate_limit_cache :=
          setA (record_rate_limit_violation st now ch pn vt reason details).rate_limit_cache
            key entry } ch =
      some { timestamp := now, client_host := ch, proxy_name := pn,
             violation_type := vt, reason := reason, details := details,
             severity := calculate_violation_severity vt details } :=
  lastViolation_record st now ch pn vt reason details

/-- The history cleanup and violation recording never touch the session map. -/
theorem checkRateLimitsMain_sessions (cfg : RateLimitConfig) (st : SessionState) (now : Int)
    (pn ch : String) :
    (checkRateLimitsMain cfg st now pn ch).state.sessions = st.sessions := by
  simp only [checkRateLimitsMain]
  by_cases h1 : ((clientSessions cfg st now ch).length : Int) ≥
      effectiveClientLimit cfg (clientSessions cfg st now ch) now
  · rw [if_pos h1]
    try rfl
  · rw [if_neg h1]
    by_cases h2 : ((proxySessionCount st pn : Int)) ≥ cfg.max_sessions_per_proxy
    · rw [if_pos h2]
      try rfl
    · rw [if_neg h2]
      try rfl

/-- With no fresh cache entry, `_check_rate_limits` runs its main body. -/
theorem check_rate_limits_stale (cfg : RateLimitConfig) (st : SessionState) (now : Int)
    (pn ch : String) (h : cacheStale st (ch ++ ":" ++ pn) now) :
    check_rate_limits cfg st now pn ch = checkRateLimitsMain cfg st now pn ch := by
  simp only [check_rate_limits]
  cases hc : lookupA st.rate_limit_cache (ch ++ ":" ++ pn) with
  | none => rfl
  | some tar =>
    obtain ⟨t, a, r⟩ := tar
    have h5 : 5 ≤ now - t := h t a r hc
    show (if now - t < 5 then CheckResult.mk a r st
      else checkRateLimitsMain cfg st now pn ch) = checkRateLimitsMain cfg st now pn ch
    rw [if_neg (by omega)]

theorem check_rate_limits_sessions (cfg : RateLimitConfig) (st : SessionState) (now : Int)
    (pn ch : String) :
    (check_rate_limits cfg st now pn ch).state.sessions = st.sessions := by
  simp only [check_rate_limits]
  cases hc : lookupA st.rate_limit_cache (ch ++ ":" ++ pn) with
  | none => exact checkRateLimitsMain_sessions cfg st now pn ch
  | some tar =>
    obtain ⟨t, a, r⟩ := tar
    show (if now - t < 5 then CheckResult.mk a r st
      else checkRateLimitsMain cfg st now pn ch).state.sessions = st.sessions
    by_cases h5 : now - t < 5
    · rw [if_pos h5]
    · rw [if_neg h5]
      exact checkRateLimitsMain_sessions cfg st now pn ch

/-- A denied rate-limit check makes `register_session` return the checker's
state unchanged. -/
theorem register_session_of_denied (cfg : RateLimitConfig) (st : SessionState) (now : Int)
    (sid pn ch : String) (h : (check_rate_limits cfg st now pn ch).allowed = false) :
    register_session cfg st now sid pn ch =
      (false, (check_rate_limits cfg st now pn ch).state) := by
  simp only [register_session, h, Bool.not_false, eq_self_iff_true, if_true]

/-- The client-cap branch of the main check: denial plus the recorded
`client_limit` violation. -/
theorem checkMain_client_denied (cfg : RateLimitConfig) (st : SessionState) (now : Int)
    (pn ch : String)
    (hge : ((clientSessions cfg st now ch).length : Int) ≥
      effectiveClientLimit cfg (clientSessions cfg st now ch) now) :
    (checkRateLimitsMain cfg st now pn ch).allowed = false ∧
    lastViolation (checkRateLimitsMain cfg st now pn ch).state ch =
      some { timestamp := now, client_host := ch, proxy_name := pn,
             violation_type := "client_limit",
             reason := "Client " ++ ch ++ " exceeded rate limit (" ++
               toString (clientSessions cfg st now ch).length ++ "/" ++
               toString (effectiveClientLimit cfg (clientSessions cfg st now ch) now) ++
               " sessions in " ++ toString cfg.session_creation_window ++ "s)",
             details := [("client_sessions", Json.num (clientSessions cfg st now ch).length),
               ("effective_limit",
                 Json.num (effectiveClientLimit cfg (clientSessions cfg st now ch) now)),
               ("window_seconds", Json.num cfg.session_creation_window),
               ("adaptive_scaling_applied", Json.bool (cfg.adaptive_scaling &&
                 effectiveClientLimit cfg (clientSessions cfg st now ch) now >
                   cfg.max_sessions_per_client))],
             severity := calculate_violation_severity "client_limit"
               [("client_sessions", Json.num (clientSessions cfg st now ch).length),
                ("effective_limit",
                  Json.num (effectiveClientLimit cfg (clientSessions cfg st now ch) now)),
                ("window_seconds", Json.num cfg.session_creation_window),
                ("adaptive_scaling_applied", Json.bool (cfg.adaptive_scaling &&
                  effectiveClientLimit cfg (clientSessions cfg st now ch) now >
                    cfg.max_sessions_per_client))] } := by
  constructor
  · simp only [checkRateLimitsMain]
    rw [if_pos hge]
  · simp only [checkRateLimitsMain]
    rw [if_pos hge]
    exact lastViolation_record_cache _ now ch pn "client_limit" _ _ _ _

/-- The proxy-cap branch of the main check: denial plus the recorded
`proxy_limit` violation. -/
theorem checkMain_proxy_denied (cfg : RateLimitConfig) (st : SessionState) (now : Int)
    (pn ch : String)
    (hlt : ((clientSessions cfg st now ch).length : Int) <
      effectiveClientLimit cfg (clientSessions cfg st now ch) now)
    (hge : ((proxySessionCount st pn : Int)) ≥ cfg.max_sessions_per_proxy) :
    (checkRateLimitsMain cfg st now pn ch).allowed = false ∧
    lastViolation (checkRateLimitsMain cfg st now pn ch).state ch =
      some { timestamp := now, client_host := ch, proxy_name := pn,
             violation_type := "proxy_limit",
             reason := "Proxy " ++ pn ++ " exceeded session limit (" ++
               toString (proxySessionCount st pn) ++ "/" ++
               toString cfg.max_sessions_per_proxy ++ " active sessions)",
             details := [("proxy_sessions", Json.num (proxySessionCount st pn)),
               ("proxy_limit", Json.num cfg.max_sessions_per_proxy)],
             severity := calculate_violation_severity "proxy_limit"
               [("proxy_sessions", Json.num (proxySessionCount st pn)),
                ("proxy_limit", Json.num cfg.max_sessions_per_proxy)] } := by
  have hnot : ¬(((clientSessions cfg st now ch).length : Int) ≥
      effectiveClientLimit cfg (clientSessions cfg st now ch) now) := not_le.mpr hlt
  constructor
  · simp only [checkRateLimitsMain]
    rw [if_neg hnot, if_pos hge]
  · simp only [checkRateLimitsMain]
    rw [if_neg hnot, if_pos hge]
    exact lastViolation_record_cache _ now ch pn "proxy_limit" _ _ _ _

/-- At `s = l ≥ 0` the client-limit severity computation returns "low". -/
theorem severity_client_self (s : Int) (hs : 0 ≤ s) (rest : JObj) :
    calculate_violation_severity "client_limit"
      (("client_sessions", Json.num s) :: ("effective_limit", Json.num s) :: rest) = "low" := by
  have h1 : pyGetInt (("client_sessions", Json.num s) :: ("effective_limit", Json.num s) :: rest)
      "client_sessions" = s := rfl
  have h2 : pyGetInt (("client_sessions", Json.num s) :: ("effective_limit", Json.num s) :: rest)
      "effective_limit" = s := rfl
  simp only [calculate_violation_severity, h1, h2]
  rw [if_pos trivial, if_neg (by omega), if_neg (by omega), if_neg (by omega)]

/-- The proxy-limit severity computation, in closed form. -/
theorem severity_proxy_eval (s l : Int) :
    calculate_violation_severity "proxy_limit"
      [("proxy_sessions", Json.num s), ("proxy_limit", Json.num l)] =
      if 2 * s > 3 * l then "critical" else if 5 * s > 6 * l then "high" else "medium" := by
  have h1 : pyGetInt [("proxy_sessions", Json.num s), ("proxy_limit", Json.num l)]
      "proxy_sessions" = s := rfl
  have h2 : pyGetInt [("proxy_sessions", Json.num s), ("proxy_limit", Json.num l)]
      "proxy_limit" = l := rfl
  simp only [calculate_violation_severity, h1, h2]
  rw [if_neg (by decide), if_pos trivial]

/-- C3 (amended): when the rate-limit cache holds no fresh entry for the
client/proxy pair, a client sitting exactly at `max_sessions_per_client`
sessions in the window, with no burst allowance applicable, is denied:
`register_session` returns `False`, the session map is unchanged, and a
`client_limit` violation of severity "low" is recorded for the client.
(Without the cache hypothesis the claim fails — see the cache-bypass
counterexample.) -/
theorem register_session_client_limit (cfg : RateLimitConfig) (st : SessionState) (now : Int)
    (sid pn ch : String)
    (hstale : cacheStale st (ch ++ ":" ++ pn) now)
    (hlen : ((clientSessions cfg st now ch).length : Int) = cfg.max_sessions_per_client)
    (hburst : effectiveClientLimit cfg (clientSessions cfg st now ch) now =
      cfg.max_sessions_per_client) :
    (register_session cfg st now sid pn ch).1 = false ∧
    (register_session cfg st now sid pn ch).2.sessions = st.sessions ∧
    ∃ v, lastViolation (register_session cfg st now sid pn ch).2 ch = some v ∧
      v.violation_type = "client_limit" ∧ v.severity = "low" := by
  have hchk := check_rate_limits_stale cfg st now pn ch hstale
  have hge : ((clientSessions cfg st now ch).length : Int) ≥
      effectiveClientLimit cfg (clientSessions cfg st now ch) now := by rw [hlen, hburst]
  have hden := checkMain_client_denied cfg st now pn ch hge
  have hreg := register_session_of_denied cfg st now sid pn ch (by rw [hchk]; exact hden.1)
  refine ⟨by rw [hreg], ?_, ?_⟩
  · rw [hreg]
    show (check_rate_limits cfg st now pn ch).state.sessions = st.sessions
    exact check_rate_limits_sessions cfg st now pn ch
  · rw [hreg, hchk]
    refine ⟨_, hden.2, rfl, ?_⟩
    show calculate_violation_severity "client_limit"
      [("client_sessions", Json.num (clientSessions cfg st now ch).length),
       ("effective_limit",
         Json.num (effectiveClientLimit cfg (clientSessions cfg st now ch) now)),
       ("window_seconds", Json.num cfg.session_creation_window),
       ("adaptive_scaling_applied", Json.bool (cfg.adaptive_scaling &&
         effectiveClientLimit cfg (clientSessions cfg st now ch) now >
           cfg.max_sessions_per_client))] = "low"
    rw [hburst, ← hlen]
    exact severity_client_self _ (by omega) _

/-- C3 witness: the amended theorem applied to a client with ten sessions
in the window, default limits, burst inactive, and an empty cache. -/
theorem register_session_client_limit_witness :
    (register_session cfgDef stC3b 1000 "s11" "P" "1.2.3.4").1 = false :=
  (register_session_client_limit cfgDef stC3b 1000 "s11" "P" "1.2.3.4"
    (by intro t a r h; simp [stC3b, lookupA] at h)
    (by decide) (by decide)).1

/-- C3 counterexample: the 5-second rate-limit result cache bypasses the
limits.  The client sits exactly at the cap (ten sessions in the window,
no burst), yet because a fresh allowing cache entry exists the eleventh
registration succeeds, adds a session, and records no violation. -/
theorem register_session_cache_bypass :
    ((clientSessions cfgDef stC3 1000 "1.2.3.4").length : Int) =
      cfgDef.max_sessions_per_client ∧
    effectiveClientLimit cfgDef (clientSessions cfgDef stC3 1000 "1.2.3.4") 1000 =
      cfgDef.max_sessions_per_client ∧
    (register_session cfgDef stC3 1000 "s11" "P" "1.2.3.4").1 = true ∧
    (register_session cfgDef stC3 1000 "s11" "P" "1.2.3.4").2.sessions.length =
      stC3.sessions.length + 1 ∧
    lastViolation (register_session cfgDef stC3 1000 "s11" "P" "1.2.3.4").2 "1.2.3.4" =
      none :=
  ⟨rfl, rfl, rfl, rfl, rfl⟩

/-- C9 (amended): a registration denied by the per-proxy cap (with a stale
cache and the client cap not hit) records a `proxy_limit` violation whose
severity follows the code's thresholds — "critical" when `s > 1.5c`,
"high" when `s > 1.2c`, and "medium" otherwise; the claimed thresholds
(`s > 2c → critical`, `> 1.5c → high`, `> 1.2c → medium`, else "low")
disagree — see the counterexample. -/
theorem register_session_proxy_limit (cfg : RateLimitConfig) (st : SessionState) (now : Int)
    (sid pn ch : String)
    (hstale : cacheStale st (ch ++ ":" ++ pn) now)
    (hclient : ((clientSessions cfg st now ch).length : Int) <
      effectiveClientLimit cfg (clientSessions cfg st now ch) now)
    (hproxy : ((proxySessionCount st pn : Int)) ≥ cfg.max_sessions_per_proxy) :
    (register_session cfg st now sid pn ch).1 = false ∧
    ∃ v, lastViolation (register_session cfg st now sid pn ch).2 ch = some v ∧
      v.violation_type = "proxy_limit" ∧
      v.severity = (if 2 * (proxySessionCount st pn : Int) > 3 * cfg.max_sessions_per_proxy
        then "critical"
        else if 5 * (proxySessionCount st pn : Int) > 6 * cfg.max_sessions_per_proxy
        then "high" else "medium") := by
  have hchk := check_rate_limits_stale cfg st now pn ch hstale
  have hden := checkMain_proxy_denied cfg st now pn ch hclient hproxy
  have hreg := register_session_of_denied cfg st now sid pn ch (by rw [hchk]; exact hden.1)
  refine ⟨by rw [hreg], ?_⟩
  rw [hreg, hchk]
  exact ⟨_, hden.2, rfl, severity_proxy_eval _ _⟩

/-- C9 witness: the amended theorem applied to a proxy at its cap of one
session. -/
theorem register_session_proxy_limit_witness :
    (register_session cfgC9 stC9 1000 "s2" "P" "9.9.9.9").1 = false :=
  (register_session_proxy_limit cfgC9 stC9 1000 "s2" "P" "9.9.9.9"
    (by intro t a r h; simp [stC9, lookupA] at h)
    (by decide) (by decide)).1

/-- C9 counterexample: at exactly the proxy cap (`s = c = 1`) the recorded
severity is "medium", although none of the claimed thresholds
(`s > 2c`, `s > 1.5c`, `s > 1.2c`) hold, so the claim's mapping would give
"low". -/
theorem severity_proxy_counterexample :
    lastViolation (register_session cfgC9 stC9 1000 "s2" "P" "9.9.9.9").2 "9.9.9.9" =
      some { timestamp := 1000, client_host := "9.9.9.9", proxy_name := "P",
             violation_type := "proxy_limit",
             reason := "Proxy P exceeded session limit (1/1 active sessions)",
             details := [("proxy_sessions", Json.num 1), ("proxy_limit", Json.num 1)],
             severity := "medium" } ∧
    ¬((1 : Int) > 2 * 1) ∧ ¬(2 * (1 : Int) > 3 * 1) ∧ ¬(5 * (1 : Int) > 6 * 1) :=
  ⟨rfl, by decide, by decide, by decide⟩

/-- C10: re-registering an existing `session_id` that passes the rate-limit
check succeeds, replaces the stored session with a fresh one (new
`created_at`, empty `pending_messages`, `is_initialized = false`), keeps
the session count unchanged, and still appends a creation timestamp to the
client's history. -/
theorem register_session_duplicate (cfg : RateLimitConfig) (st : SessionState) (now : Int)
    (sid pn ch : String) (s0 : SSESession)
    (hdup : lookupA st.sessions sid = some s0)
    (hallow : (check_rate_limits cfg st now pn ch).allowed = true) :
    (register_session cfg st now sid pn ch).1 = true ∧
    lookupA (register_session cfg st now sid pn ch).2.sessions sid =
      some { session_id := sid, proxy_name := pn, client_host := ch,
             created_at := now, last_activity := now } ∧
    (register_session cfg st now sid pn ch).2.sessions.length = st.sessions.length ∧
    ((lookupA (register_session cfg st now sid pn ch).2.client_session_history ch).getD
      []).getLast? = some now := by
  simp only [register_session, hallow, Bool.not_true, Bool.false_eq_true, if_false]
  refine ⟨trivial, ?_, ?_, ?_⟩
  · exact lookupA_setA_self _ _ _
  · show (setA (check_rate_limits cfg st now pn ch).state.sessions sid
      { session_id := sid, proxy_name := pn, client_host := ch,
        created_at := now, last_activity := now }).length = st.sessions.length
    rw [check_rate_limits_sessions cfg st now pn ch]
    exact setA_length_of_mem _ _ _ (by rw [hdup]; rfl)
  · show ((lookupA (setA (check_rate_limits cfg st now pn ch).state.client_session_history ch
      (((lookupA (check_rate_limits cfg st now pn ch).state.client_session_history ch).getD [])
        ++ [now])) ch).getD []).getLast? = some now
    rw [lookupA_setA_self]
    exact getLast?_concatA now _

/-- C10 witness: re-registering `sid` over `stC10` (which already holds an
initialized session `sid` with a pending message). -/
theorem register_session_duplicate_witness :
    (register_session cfgDef stC10 1000 "sid" "P" "1.2.3.4").1 = true ∧
    (register_session cfgDef stC10 1000 "sid" "P" "1.2.3.4").2.sessions.length =
      stC10.sessions.length :=
  ⟨(register_session_duplicate cfgDef stC10 1000 "sid" "P" "1.2.3.4" sessC10 rfl
      (by decide)).1,
   (register_session_duplicate cfgDef stC10 1000 "sid" "P" "1.2.3.4" sessC10 rfl
      (by decide)).2.2.1⟩

end MCPDock
